import Mathlib

/-!
Verification of the tuya device-protocol client: wire frame codec
(net/client.go), authenticated-encryption cipher (net/crypto.go), response
status decoding, sequence assignment and session close semantics
(device/manager.go), modelled as a shallow embedding over lists of bytes
(naturals below 256) with machine integers as naturals reduced modulo the
appropriate power of two.
-/

namespace Tuya

/-! Big-endian 32-bit serialization, as performed by encoding/binary on the
uint32 fields of the frame header and trailer structs. -/

/-- Big-endian byte serialization of a 32-bit word. -/
def be32enc (n : Nat) : List Nat :=
  [n / 2 ^ 24 % 256, n / 2 ^ 16 % 256, n / 2 ^ 8 % 256, n % 256]

/-- Big-endian reconstruction of a 32-bit word from four bytes. -/
def be32dec (a b c d : Nat) : Nat :=
  ((a * 256 + b) * 256 + c) * 256 + d

theorem be32dec_be32enc (n : Nat) (h : n < 2 ^ 32) :
    be32dec (n / 2 ^ 24 % 256) (n / 2 ^ 16 % 256) (n / 2 ^ 8 % 256) (n % 256) = n := by
  unfold be32dec
  omega

theorem be32enc_mem_lt {n b : Nat} (hb : b ∈ be32enc n) : b < 256 := by
  simp only [be32enc, List.mem_cons, List.not_mem_nil, or_false] at hb
  rcases hb with h | h | h | h <;> subst h <;> omega

theorem be32enc_length (n : Nat) : (be32enc n).length = 4 := rfl

/-! CRC-32 (IEEE polynomial, reflected form), as computed by hash/crc32. -/

/-- Reversed representation of the IEEE CRC-32 polynomial. -/
def crcPoly : Nat := 0xEDB88320

/-- One bit step of the reflected CRC-32 computation. -/
def crcBit (s : Nat) : Nat :=
  if s % 2 = 1 then s / 2 ^^^ crcPoly else s / 2

/-- Inverse of `crcBit` on 32-bit states. -/
def crcBitInv (t : Nat) : Nat :=
  if 2 ^ 31 ≤ t then 2 * (t ^^^ crcPoly) + 1 else 2 * t

/-- Eight bit steps, processing one byte already folded into the state. -/
def crc8 (s : Nat) : Nat :=
  crcBit (crcBit (crcBit (crcBit (crcBit (crcBit (crcBit (crcBit s)))))))

/-- CRC-32 state update for one input byte. -/
def crcUpdate (s b : Nat) : Nat := crc8 (s ^^^ b)

/-- CRC-32 checksum of a byte sequence (crc32.ChecksumIEEE). -/
def crc32 (data : List Nat) : Nat :=
  (data.foldl crcUpdate 0xFFFFFFFF) ^^^ 0xFFFFFFFF

theorem crcBit_lt {s : Nat} (h : s < 2 ^ 32) : crcBit s < 2 ^ 32 := by
  unfold crcBit
  split
  · exact Nat.xor_lt_two_pow (by omega) (by decide)
  · omega

theorem xor_crcPoly_ge {a : Nat} (h : a < 2 ^ 31) : 2 ^ 31 ≤ a ^^^ crcPoly := by
  apply Nat.testBit_implies_ge
  rw [Nat.testBit_xor]
  rw [Nat.testBit_lt_two_pow h]
  decide

theorem crcBitInv_crcBit {s : Nat} (h : s < 2 ^ 32) : crcBitInv (crcBit s) = s := by
  unfold crcBit crcBitInv
  rcases Nat.mod_two_eq_zero_or_one s with he | ho
  · have h1 : ¬ (s % 2 = 1) := by omega
    rw [if_neg h1]
    have h2 : ¬ (2 ^ 31 ≤ s / 2) := by omega
    rw [if_neg h2]
    omega
  · rw [if_pos ho]
    have h2 : s / 2 < 2 ^ 31 := by omega
    rw [if_pos (xor_crcPoly_ge h2)]
    rw [Nat.xor_cancel_right]
    omega

theorem crcBit_inj {s t : Nat} (hs : s < 2 ^ 32) (ht : t < 2 ^ 32)
    (h : crcBit s = crcBit t) : s = t := by
  have := crcBitInv_crcBit hs
  have := crcBitInv_crcBit ht
  rw [h] at *
  omega

theorem crc8_lt {s : Nat} (h : s < 2 ^ 32) : crc8 s < 2 ^ 32 := by
  unfold crc8
  exact crcBit_lt (crcBit_lt (crcBit_lt (crcBit_lt (crcBit_lt (crcBit_lt (crcBit_lt (crcBit_lt h)))))))

theorem crc8_inj {s t : Nat} (hs : s < 2 ^ 32) (ht : t < 2 ^ 32)
    (h : crc8 s = crc8 t) : s = t := by
  unfold crc8 at h
  have l1 := crcBit_lt hs
  have l2 := crcBit_lt l1
  have l3 := crcBit_lt l2
  have l4 := crcBit_lt l3
  have l5 := crcBit_lt l4
  have l6 := crcBit_lt l5
  have l7 := crcBit_lt l6
  have m1 := crcBit_lt ht
  have m2 := crcBit_lt m1
  have m3 := crcBit_lt m2
  have m4 := crcBit_lt m3
  have m5 := crcBit_lt m4
  have m6 := crcBit_lt m5
  have m7 := crcBit_lt m6
  exact crcBit_inj hs ht (crcBit_inj l1 m1 (crcBit_inj l2 m2 (crcBit_inj l3 m3
    (crcBit_inj l4 m4 (crcBit_inj l5 m5 (crcBit_inj l6 m6 (crcBit_inj l7 m7 h)))))))

theorem crcUpdate_lt {s b : Nat} (hs : s < 2 ^ 32) (hb : b < 2 ^ 32) :
    crcUpdate s b < 2 ^ 32 :=
  crc8_lt (Nat.xor_lt_two_pow hs hb)

theorem crcUpdate_inj {s t b : Nat} (hs : s < 2 ^ 32) (ht : t < 2 ^ 32)
    (hb : b < 2 ^ 32) (hst : s ≠ t) : crcUpdate s b ≠ crcUpdate t b := by
  intro h
  apply hst
  have := crc8_inj (Nat.xor_lt_two_pow hs hb) (Nat.xor_lt_two_pow ht hb) h
  have h2 : (s ^^^ b) ^^^ b = (t ^^^ b) ^^^ b := by rw [this]
  rwa [Nat.xor_cancel_right, Nat.xor_cancel_right] at h2

theorem crcUpdate_xor_ne {s x y : Nat} (hs : s < 2 ^ 32) (hx : x < 2 ^ 32)
    (hy : y < 2 ^ 32) (hxy : x ≠ y) : crcUpdate s x ≠ crcUpdate s y := by
  intro h
  apply hxy
  have h2 := crc8_inj (Nat.xor_lt_two_pow hs hx) (Nat.xor_lt_two_pow hs hy) h
  have h3 := congrArg (fun z => s ^^^ z) h2
  simpa only [Nat.xor_cancel_left] using h3

theorem crcFoldl_lt {l : List Nat} (hl : ∀ b ∈ l, b < 2 ^ 32) :
    ∀ {s : Nat}, s < 2 ^ 32 → l.foldl crcUpdate s < 2 ^ 32 := by
  induction l with
  | nil => intro s hs; simpa using hs
  | cons a l ih =>
    intro s hs
    simp only [List.foldl_cons]
    exact ih (fun b hb => hl b (List.mem_cons_of_mem a hb))
      (crcUpdate_lt hs (hl a (List.mem_cons_self a l)))

theorem crcFoldl_ne {l : List Nat} (hl : ∀ b ∈ l, b < 2 ^ 32) :
    ∀ {s t : Nat}, s < 2 ^ 32 → t < 2 ^ 32 → s ≠ t →
      l.foldl crcUpdate s ≠ l.foldl crcUpdate t := by
  induction l with
  | nil => intro s t _ _ hst; simpa using hst
  | cons a l ih =>
    intro s t hs ht hst
    simp only [List.foldl_cons]
    have ha : a < 2 ^ 32 := hl a (List.mem_cons_self a l)
    exact ih (fun b hb => hl b (List.mem_cons_of_mem a hb))
      (crcUpdate_lt hs ha) (crcUpdate_lt ht ha) (crcUpdate_inj hs ht ha hst)

theorem crc32_lt {l : List Nat} (hl : ∀ b ∈ l, b < 2 ^ 32) : crc32 l < 2 ^ 32 := by
  unfold crc32
  exact Nat.xor_lt_two_pow (crcFoldl_lt hl (by decide)) (by decide)

/-- CRC-32 distinguishes any two byte strings differing in exactly one byte. -/
theorem crc32_ne_of_single_diff (pre suf : List Nat) {x y : Nat}
    (hpre : ∀ b ∈ pre, b < 2 ^ 32) (hsuf : ∀ b ∈ suf, b < 2 ^ 32)
    (hx : x < 2 ^ 32) (hy : y < 2 ^ 32) (hxy : x ≠ y) :
    crc32 (pre ++ x :: suf) ≠ crc32 (pre ++ y :: suf) := by
  unfold crc32
  intro h
  have h2 : (pre ++ x :: suf).foldl crcUpdate 0xFFFFFFFF =
      (pre ++ y :: suf).foldl crcUpdate 0xFFFFFFFF := by
    have := congrArg (· ^^^ 0xFFFFFFFF) h
    simpa [Nat.xor_assoc] using this
  rw [List.foldl_append, List.foldl_append] at h2
  set s := pre.foldl crcUpdate 0xFFFFFFFF with hs
  have hslt : s < 2 ^ 32 := crcFoldl_lt hpre (by decide)
  simp only [List.foldl_cons] at h2
  exact crcFoldl_ne hsuf (crcUpdate_lt hslt hx) (crcUpdate_lt hslt hy)
    (crcUpdate_xor_ne hslt hx hy hxy) h2

/-! Frame codec (net/client.go). Constants and layout follow the source:
magicHead models prefixValue (0x55aa), magicTail models suffixValue (0xaa55),
and the header is four big-endian uint32 fields. -/

/-- Magic value opening a frame header (the source's 0x55aa constant). -/
def magicHead : Nat := 0x55aa

/-- Magic value closing a frame trailer (the source's 0xaa55 constant). -/
def magicTail : Nat := 0xaa55

/-- Packets are limited to a single TCP frame in practice. -/
def maxPacketSize : Nat := 0xffff

/-- Size in bytes of the trailer struct (uint32 CRC plus uint32 magic). -/
def trailerSize : Nat := 8

/-- Size in bytes of the header struct (four uint32 fields). -/
def headerSize : Nat := 16

/-- Maximum payload size accepted by the codec. -/
def MaxPayloadSize : Nat := maxPacketSize - trailerSize

/-- A message frame with sequence and command numbers parsed out. -/
structure Frame where
  seq : Nat
  cmd : Nat
  payload : List Nat
  deriving DecidableEq

/-- Well-formedness: the uint32 fields fit in 32 bits and the payload holds bytes. -/
def Frame.WF (f : Frame) : Prop :=
  f.seq < 2 ^ 32 ∧ f.cmd < 2 ^ 32 ∧ ∀ b ∈ f.payload, b < 256

/-- Decode failures, named after the error returns of (*Frame).Decode:
headerShort is the header read error, badHeadMagic the bad 0x55aa magic error,
payloadTooLarge the size limit error, payloadShort the payload read error,
trailerShort the trailer read error, badTailMagic the bad 0xaa55 magic error,
and crcMismatch the checksum error. -/
inductive DecodeError where
  | headerShort
  | badHeadMagic
  | payloadTooLarge
  | payloadShort
  | trailerShort
  | badTailMagic
  | crcMismatch
  deriving DecidableEq

/-- Outcome of (*Frame).Decode: a frame plus the unread remainder of the
stream, an error, or a Go runtime panic. -/
inductive DecodeResult where
  | ok (f : Frame) (rest : List Nat)
  | err (e : DecodeError)
  | panic
  deriving DecidableEq

/-- Trailer step of (*Frame).Decode: read eight trailer bytes, check the
trailer magic, then check the CRC computed over the header and payload bytes
(the bytes that passed through the TeeReader). -/
def Frame.decodeTrailer (seq cmd : Nat) (hdr payload : List Nat) : List Nat → DecodeResult
  | t0 :: t1 :: t2 :: t3 :: t4 :: t5 :: t6 :: t7 :: rest2 =>
    if be32dec t4 t5 t6 t7 ≠ magicTail then .err .badTailMagic
    else if crc32 (hdr ++ payload) ≠ be32dec t0 t1 t2 t3 then .err .crcMismatch
    else .ok ⟨seq, cmd, payload⟩ rest2
  | _ => .err .trailerShort

/-- Shared tail of (*Frame).Decode after the header has been read and the
payload size fixed: read n payload bytes, then process the trailer. -/
def Frame.decodeAfterHeader (seq cmd n : Nat) (hdr rest : List Nat) : DecodeResult :=
  if rest.length < n then .err .payloadShort
  else Frame.decodeTrailer seq cmd hdr (rest.take n) (rest.drop n)

/-- Model of (*Frame).Decode. `cap` is the capacity of the caller-supplied
payload buffer (zero for DecodeFrame, which starts from an empty Frame).
The payload size is the signed difference between the header length field and
the trailer size, exactly as in the source; the size limit is only checked in
the allocation branch, and the slice expression of the reuse branch panics on
a negative size. -/
def Frame.decode (cap : Nat) : List Nat → DecodeResult
  | h0 :: h1 :: h2 :: h3 :: s0 :: s1 :: s2 :: s3 :: c0 :: c1 :: c2 :: c3 ::
      l0 :: l1 :: l2 :: l3 :: rest =>
    if be32dec h0 h1 h2 h3 ≠ magicHead then .err .badHeadMagic
    else
      if (cap : Int) < (be32dec l0 l1 l2 l3 : Int) - (trailerSize : Int) then
        if (be32dec l0 l1 l2 l3 : Int) - (trailerSize : Int) > (MaxPayloadSize : Int) then
          .err .payloadTooLarge
        else Frame.decodeAfterHeader (be32dec s0 s1 s2 s3) (be32dec c0 c1 c2 c3)
          ((be32dec l0 l1 l2 l3 : Int) - (trailerSize : Int)).toNat
          [h0, h1, h2, h3, s0, s1, s2, s3, c0, c1, c2, c3, l0, l1, l2, l3] rest
      else
        if (be32dec l0 l1 l2 l3 : Int) - (trailerSize : Int) < 0 then .panic
        else Frame.decodeAfterHeader (be32dec s0 s1 s2 s3) (be32dec c0 c1 c2 c3)
          ((be32dec l0 l1 l2 l3 : Int) - (trailerSize : Int)).toNat
          [h0, h1, h2, h3, s0, s1, s2, s3, c0, c1, c2, c3, l0, l1, l2, l3] rest
  | _ => .err .headerShort

/-- Header bytes written by (*Frame).buffer. -/
def Frame.headerBytes (f : Frame) : List Nat :=
  be32enc magicHead ++ be32enc f.seq ++ be32enc f.cmd ++
    be32enc (f.payload.length + trailerSize)

/-- Wire bytes written by (*Frame).buffer: header, payload, CRC over the bytes
written so far, trailer magic. -/
def Frame.encodeBytes (f : Frame) : List Nat :=
  f.headerBytes ++ f.payload ++
    be32enc (crc32 (f.headerBytes ++ f.payload)) ++ be32enc magicTail

/-- Model of (*Frame).Encode, including the size check of (*Frame).buffer. -/
def Frame.encode (f : Frame) : Except String (List Nat) :=
  if f.payload.length > MaxPayloadSize then .error "payload too large"
  else .ok f.encodeBytes

/-- Master characterization of Frame.Decode on a structurally well-formed
wire image: if the trailer CRC field agrees with the CRC of the header and
payload bytes the frame is returned with nothing unread, otherwise decoding
fails with the checksum error. -/
theorem Frame.decode_structured (cap : Nat)
    (h0 h1 h2 h3 s0 s1 s2 s3 c0 c1 c2 c3 l0 l1 l2 l3 : Nat)
    (u0 u1 u2 u3 t0 t1 t2 t3 : Nat)
    (payload : List Nat)
    (hmagic : be32dec h0 h1 h2 h3 = magicHead)
    (hlen : be32dec l0 l1 l2 l3 = payload.length + trailerSize)
    (hsize : payload.length ≤ MaxPayloadSize ∨ payload.length ≤ cap)
    (htail : be32dec t0 t1 t2 t3 = magicTail) :
    Frame.decode cap (h0 :: h1 :: h2 :: h3 :: s0 :: s1 :: s2 :: s3 :: c0 :: c1 :: c2 :: c3 ::
        l0 :: l1 :: l2 :: l3 :: (payload ++ [u0, u1, u2, u3, t0, t1, t2, t3])) =
      if crc32 ([h0, h1, h2, h3, s0, s1, s2, s3, c0, c1, c2, c3, l0, l1, l2, l3] ++ payload)
          = be32dec u0 u1 u2 u3
      then .ok ⟨be32dec s0 s1 s2 s3, be32dec c0 c1 c2 c3, payload⟩ []
      else .err .crcMismatch := by
  have hafter : Frame.decodeAfterHeader (be32dec s0 s1 s2 s3) (be32dec c0 c1 c2 c3)
      payload.length
      [h0, h1, h2, h3, s0, s1, s2, s3, c0, c1, c2, c3, l0, l1, l2, l3]
      (payload ++ [u0, u1, u2, u3, t0, t1, t2, t3]) =
      if crc32 ([h0, h1, h2, h3, s0, s1, s2, s3, c0, c1, c2, c3, l0, l1, l2, l3] ++ payload)
          = be32dec u0 u1 u2 u3
      then .ok ⟨be32dec s0 s1 s2 s3, be32dec c0 c1 c2 c3, payload⟩ []
      else .err .crcMismatch := by
    unfold Frame.decodeAfterHeader
    have hlrest : (payload ++ [u0, u1, u2, u3, t0, t1, t2, t3]).length =
        payload.length + 8 := by
      simp
    rw [if_neg (by omega)]
    rw [List.take_left' rfl, List.drop_left' rfl]
    simp only [Frame.decodeTrailer]
    rw [htail]
    rw [if_neg (by simp)]
    simp only [List.cons_append, List.nil_append]
    by_cases hc : crc32 (h0 :: h1 :: h2 :: h3 :: s0 :: s1 :: s2 :: s3 :: c0 :: c1 :: c2 :: c3 ::
        l0 :: l1 :: l2 :: l3 :: payload) = be32dec u0 u1 u2 u3
    · rw [if_neg (not_not_intro hc), if_pos hc]
    · rw [if_pos hc, if_neg hc]
  simp only [Frame.decode]
  rw [if_neg (by simp [hmagic])]
  rw [hlen]
  have hps : ((payload.length + trailerSize : Nat) : Int) - (trailerSize : Int) =
      (payload.length : Int) := by
    push_cast
    ring
  rw [hps]
  have htn : ((payload.length : Nat) : Int).toNat = payload.length := by simp
  by_cases hcp : (cap : Int) < (payload.length : Int)
  · rw [if_pos hcp]
    have hle : payload.length ≤ MaxPayloadSize := by
      rcases hsize with h | h
      · exact h
      · exfalso
        omega
    rw [if_neg (by
      simp only [MaxPayloadSize, maxPacketSize, trailerSize] at hle ⊢
      omega)]
    rw [htn]
    exact hafter
  · rw [if_neg hcp]
    rw [if_neg (by omega)]
    rw [htn]
    exact hafter

theorem Frame.headerBytes_mem_lt (f : Frame) {b : Nat} (hb : b ∈ f.headerBytes) : b < 256 := by
  unfold Frame.headerBytes at hb
  rcases List.mem_append.mp hb with h | h
  · rcases List.mem_append.mp h with h | h
    · rcases List.mem_append.mp h with h | h <;> exact be32enc_mem_lt h
    · exact be32enc_mem_lt h
  · exact be32enc_mem_lt h

/-- Decoding the wire image of a well-formed frame succeeds, returns the frame
unchanged, and leaves nothing unread, as long as either the payload fits the
size limit or the caller-supplied buffer is at least as large as the payload
(the source only checks the limit in the allocation branch). -/
theorem Frame.decode_encodeBytes (f : Frame) (cap : Nat) (hWF : f.WF)
    (hsize : f.payload.length ≤ MaxPayloadSize ∨ f.payload.length ≤ cap)
    (hp32 : f.payload.length + trailerSize < 2 ^ 32) :
    Frame.decode cap f.encodeBytes = .ok f [] := by
  obtain ⟨hseq, hcmd, hpay⟩ := hWF
  have hcrcb : crc32 (f.headerBytes ++ f.payload) < 2 ^ 32 := by
    apply crc32_lt
    intro b hb
    rcases List.mem_append.mp hb with h | h
    · exact lt_trans (f.headerBytes_mem_lt h) (by norm_num)
    · exact lt_trans (hpay b h) (by norm_num)
  have hmagic := be32dec_be32enc magicHead (by decide)
  have hlenf := be32dec_be32enc (f.payload.length + trailerSize) hp32
  have htail := be32dec_be32enc magicTail (by decide)
  have h := Frame.decode_structured cap
    (magicHead / 2 ^ 24 % 256) (magicHead / 2 ^ 16 % 256)
    (magicHead / 2 ^ 8 % 256) (magicHead % 256)
    (f.seq / 2 ^ 24 % 256) (f.seq / 2 ^ 16 % 256) (f.seq / 2 ^ 8 % 256) (f.seq % 256)
    (f.cmd / 2 ^ 24 % 256) (f.cmd / 2 ^ 16 % 256) (f.cmd / 2 ^ 8 % 256) (f.cmd % 256)
    ((f.payload.length + trailerSize) / 2 ^ 24 % 256)
    ((f.payload.length + trailerSize) / 2 ^ 16 % 256)
    ((f.payload.length + trailerSize) / 2 ^ 8 % 256)
    ((f.payload.length + trailerSize) % 256)
    (crc32 (f.headerBytes ++ f.payload) / 2 ^ 24 % 256)
    (crc32 (f.headerBytes ++ f.payload) / 2 ^ 16 % 256)
    (crc32 (f.headerBytes ++ f.payload) / 2 ^ 8 % 256)
    (crc32 (f.headerBytes ++ f.payload) % 256)
    (magicTail / 2 ^ 24 % 256) (magicTail / 2 ^ 16 % 256)
    (magicTail / 2 ^ 8 % 256) (magicTail % 256)
    f.payload hmagic hlenf hsize htail
  rw [be32dec_be32enc (crc32 (f.headerBytes ++ f.payload)) hcrcb] at h
  have hcond : crc32 ((magicHead / 2 ^ 24 % 256 :: magicHead / 2 ^ 16 % 256 ::
      magicHead / 2 ^ 8 % 256 :: magicHead % 256 ::
      f.seq / 2 ^ 24 % 256 :: f.seq / 2 ^ 16 % 256 :: f.seq / 2 ^ 8 % 256 :: f.seq % 256 ::
      f.cmd / 2 ^ 24 % 256 :: f.cmd / 2 ^ 16 % 256 :: f.cmd / 2 ^ 8 % 256 :: f.cmd % 256 ::
      (f.payload.length + trailerSize) / 2 ^ 24 % 256 ::
      (f.payload.length + trailerSize) / 2 ^ 16 % 256 ::
      (f.payload.length + trailerSize) / 2 ^ 8 % 256 ::
      (f.payload.length + trailerSize) % 256 :: []) ++ f.payload) =
      crc32 (f.headerBytes ++ f.payload) := by
    congr 1
  rw [if_pos hcond] at h
  rw [be32dec_be32enc f.seq hseq, be32dec_be32enc f.cmd hcmd] at h
  simpa only [Frame.encodeBytes, Frame.headerBytes, be32enc, List.cons_append,
    List.nil_append, List.append_assoc] using h

/-- Corollary of the master characterization: when the trailer CRC field does
not match the CRC of the header and payload bytes, decoding fails with the
checksum error. -/
theorem Frame.decode_structured_ne (cap : Nat)
    (h0 h1 h2 h3 s0 s1 s2 s3 c0 c1 c2 c3 l0 l1 l2 l3 : Nat)
    (u0 u1 u2 u3 t0 t1 t2 t3 : Nat)
    (payload : List Nat)
    (hmagic : be32dec h0 h1 h2 h3 = magicHead)
    (hlen : be32dec l0 l1 l2 l3 = payload.length + trailerSize)
    (hsize : payload.length ≤ MaxPayloadSize ∨ payload.length ≤ cap)
    (htail : be32dec t0 t1 t2 t3 = magicTail)
    (hcond : crc32 ([h0, h1, h2, h3, s0, s1, s2, s3, c0, c1, c2, c3, l0, l1, l2, l3]
      ++ payload) ≠ be32dec u0 u1 u2 u3) :
    Frame.decode cap (h0 :: h1 :: h2 :: h3 :: s0 :: s1 :: s2 :: s3 :: c0 :: c1 :: c2 :: c3 ::
        l0 :: l1 :: l2 :: l3 :: (payload ++ [u0, u1, u2, u3, t0, t1, t2, t3])) =
      .err .crcMismatch := by
  rw [Frame.decode_structured cap h0 h1 h2 h3 s0 s1 s2 s3 c0 c1 c2 c3 l0 l1 l2 l3
    u0 u1 u2 u3 t0 t1 t2 t3 payload hmagic hlen hsize htail]
  rw [if_neg hcond]

/-- C1: decoding the bytes produced by Frame.Encode for any well-formed frame
whose payload is within MaxPayloadSize yields the original frame (same
sequence, command and payload), with no error and no unread bytes left. -/
theorem frame_encode_decode_roundtrip (f : Frame) (hWF : f.WF)
    (hlen : f.payload.length ≤ MaxPayloadSize) :
    f.encode = .ok f.encodeBytes ∧ Frame.decode 0 f.encodeBytes = .ok f [] := by
  constructor
  · unfold Frame.encode
    rw [if_neg (by omega)]
  · exact Frame.decode_encodeBytes f 0 hWF (Or.inl hlen)
      (by simp only [MaxPayloadSize, maxPacketSize, trailerSize] at hlen ⊢; omega)

/-- Witness for C1 at the concrete frame with sequence 1, command 2 and
payload [42]. -/
theorem frame_encode_decode_roundtrip_witness :
    Frame.WF ⟨1, 2, [42]⟩ ∧ (⟨1, 2, [42]⟩ : Frame).payload.length ≤ MaxPayloadSize ∧
      Frame.decode 0 (Frame.encodeBytes ⟨1, 2, [42]⟩) = .ok ⟨1, 2, [42]⟩ [] :=
  ⟨⟨by norm_num, by norm_num, by decide⟩, by decide,
    (frame_encode_decode_roundtrip ⟨1, 2, [42]⟩
      ⟨by norm_num, by norm_num, by decide⟩ (by decide)).2⟩

/-- C4 fails on the code: a header whose length field is below the trailer
size makes Frame.Decode evaluate the slice expression with a negative size,
a runtime panic rather than an error return; and a length field above the
limit is not rejected when the caller-supplied buffer is already big enough,
so decode succeeds with an over-limit payload instead of failing. -/
theorem frame_decode_length_bounds_bug :
    Frame.decode 0 [0, 0, 0x55, 0xaa, 0, 0, 0, 1, 0, 0, 0, 10, 0, 0, 0, 0] = .panic ∧
      Frame.decode 70000 (Frame.encodeBytes ⟨1, 2, List.replicate 65536 0⟩) =
        .ok ⟨1, 2, List.replicate 65536 0⟩ [] := by
  constructor
  · decide
  · exact Frame.decode_encodeBytes ⟨1, 2, List.replicate 65536 0⟩ 70000
      ⟨by norm_num, by norm_num, fun b hb => by
        rw [List.eq_of_mem_replicate hb]; norm_num⟩
      (Or.inr (by rw [List.length_replicate]; norm_num))
      (by rw [List.length_replicate]; norm_num [trailerSize])

set_option maxRecDepth 4000 in
/-- C5 counterexample: in the encoding of the frame with sequence 1, command 2
and payload [42], byte 15 (the low byte of the length field, which lies
between the start of the header and the end of the payload) has value 9;
changing it to 8 makes Frame.Decode fail with the bad trailer magic error,
not the checksum-mismatch error the claim requires. -/
theorem frame_single_flip_not_crc_error :
    (Frame.encodeBytes ⟨1, 2, [42]⟩).getD 15 0 = 9 ∧
      Frame.decode 0 ((Frame.encodeBytes ⟨1, 2, [42]⟩).set 15 8) =
        .err .badTailMagic ∧
      DecodeError.badTailMagic ≠ DecodeError.crcMismatch := by
  refine ⟨by decide, by decide, by decide⟩

theorem be32dec_lt {a b c d : Nat} (ha : a < 256) (hb : b < 256) (hc : c < 256)
    (hd : d < 256) : be32dec a b c d < 2 ^ 32 := by
  unfold be32dec
  omega

theorem getD_eq_getElem (l : List Nat) (j : Nat) (hj : j < l.length) :
    l.getD j 0 = l[j] := by
  simp [List.getD_eq_getElem?_getD, List.getElem?_eq_getElem hj]

theorem getD_set_ne (l : List Nat) {i j : Nat} (h : i ≠ j) (b : Nat) :
    (l.set i b).getD j 0 = l.getD j 0 := by
  simp [List.getD_eq_getElem?_getD, List.getElem?_set_ne h]

theorem getD_set_self (l : List Nat) {i : Nat} (h : i < l.length) (b : Nat) :
    (l.set i b).getD i 0 = b := by
  simp [List.getD_eq_getElem?_getD, List.getElem?_set_self h]

/-- Changing one in-range byte of a byte string always changes its CRC-32. -/
theorem crc32_set_ne (L : List Nat) (j b : Nat) (hj : j < L.length)
    (hL : ∀ x ∈ L, x < 256) (hb : b < 256) (hne : b ≠ L.getD j 0) :
    crc32 (L.set j b) ≠ crc32 L := by
  rw [List.set_eq_take_cons_drop b hj]
  conv_rhs => rw [← List.take_append_drop j L, ← List.getElem_cons_drop L j hj]
  apply crc32_ne_of_single_diff (L.take j) (L.drop (j + 1))
  · intro x hx
    exact lt_trans (hL x (List.mem_of_mem_take hx)) (by norm_num)
  · intro x hx
    exact lt_trans (hL x (List.mem_of_mem_drop hx)) (by norm_num)
  · exact lt_trans hb (by norm_num)
  · exact lt_trans (hL _ (List.getElem_mem hj)) (by norm_num)
  · rw [← getD_eq_getElem L j hj]
    exact hne

theorem exists16 {α : Type} (H : List α) (hH : H.length = 16) :
    ∃ a0 a1 a2 a3 a4 a5 a6 a7 a8 a9 a10 a11 a12 a13 a14 a15,
      H = [a0, a1, a2, a3, a4, a5, a6, a7, a8, a9, a10, a11, a12, a13, a14, a15] := by
  rcases H with _ | ⟨a0, H⟩
  · simp at hH
  rcases H with _ | ⟨a1, H⟩
  · simp at hH
  rcases H with _ | ⟨a2, H⟩
  · simp at hH
  rcases H with _ | ⟨a3, H⟩
  · simp at hH
  rcases H with _ | ⟨a4, H⟩
  · simp at hH
  rcases H with _ | ⟨a5, H⟩
  · simp at hH
  rcases H with _ | ⟨a6, H⟩
  · simp at hH
  rcases H with _ | ⟨a7, H⟩
  · simp at hH
  rcases H with _ | ⟨a8, H⟩
  · simp at hH
  rcases H with _ | ⟨a9, H⟩
  · simp at hH
  rcases H with _ | ⟨a10, H⟩
  · simp at hH
  rcases H with _ | ⟨a11, H⟩
  · simp at hH
  rcases H with _ | ⟨a12, H⟩
  · simp at hH
  rcases H with _ | ⟨a13, H⟩
  · simp at hH
  rcases H with _ | ⟨a14, H⟩
  · simp at hH
  rcases H with _ | ⟨a15, H⟩
  · simp at hH
  rcases H with _ | ⟨a16, H⟩
  · exact ⟨a0, a1, a2, a3, a4, a5, a6, a7, a8, a9, a10, a11, a12, a13, a14, a15, rfl⟩
  · simp at hH

/-- Master characterization with the header given as a 16-byte list whose
leading four bytes spell the header magic and whose trailing four bytes spell
the length field. -/
theorem Frame.decode_structured_listHeader (cap : Nat) (H : List Nat)
    (hH : H.length = 16) (u0 u1 u2 u3 t0 t1 t2 t3 : Nat) (payload : List Nat)
    (hmagic : H.take 4 = be32enc magicHead)
    (hlen : H.drop 12 = be32enc (payload.length + trailerSize))
    (hp32 : payload.length + trailerSize < 2 ^ 32)
    (hsize : payload.length ≤ MaxPayloadSize ∨ payload.length ≤ cap)
    (htail : be32dec t0 t1 t2 t3 = magicTail) :
    Frame.decode cap (H ++ (payload ++ [u0, u1, u2, u3, t0, t1, t2, t3])) =
      if crc32 (H ++ payload) = be32dec u0 u1 u2 u3
      then .ok ⟨be32dec (H.getD 4 0) (H.getD 5 0) (H.getD 6 0) (H.getD 7 0),
        be32dec (H.getD 8 0) (H.getD 9 0) (H.getD 10 0) (H.getD 11 0), payload⟩ []
      else .err .crcMismatch := by
  obtain ⟨a0, a1, a2, a3, a4, a5, a6, a7, a8, a9, a10, a11, a12, a13, a14, a15, rfl⟩ :=
    exists16 H hH
  simp only [List.take_succ_cons, List.take_zero, List.drop_succ_cons,
    List.drop_zero] at hmagic hlen
  simp only [be32enc, List.cons.injEq, and_true] at hmagic hlen
  obtain ⟨e0, e1, e2, e3⟩ := hmagic
  obtain ⟨g0, g1, g2, g3⟩ := hlen
  simp only [List.getD_cons_zero, List.getD_cons_succ]
  simp only [List.cons_append, List.nil_append]
  apply Frame.decode_structured cap
  · rw [e0, e1, e2, e3]
    exact be32dec_be32enc magicHead (by decide)
  · rw [g0, g1, g2, g3]
    exact be32dec_be32enc _ hp32
  · exact hsize
  · exact htail

/-- A stream whose first four bytes do not spell the header magic is rejected
with the framing error, whatever follows. -/
theorem Frame.decode_badMagic_listHeader (cap : Nat) (H : List Nat) (hH : H.length = 16)
    (rest : List Nat) (hbytes : ∀ x ∈ H, x < 256)
    (hmagic : H.take 4 ≠ be32enc magicHead) :
    Frame.decode cap (H ++ rest) = .err .badHeadMagic := by
  obtain ⟨a0, a1, a2, a3, a4, a5, a6, a7, a8, a9, a10, a11, a12, a13, a14, a15, rfl⟩ :=
    exists16 H hH
  have hb0 : a0 < 256 := hbytes _ (by simp)
  have hb1 : a1 < 256 := hbytes _ (by simp)
  have hb2 : a2 < 256 := hbytes _ (by simp)
  have hb3 : a3 < 256 := hbytes _ (by simp)
  simp only [List.take_succ_cons, List.take_zero] at hmagic
  simp only [List.cons_append, List.nil_append]
  simp only [Frame.decode]
  rw [if_pos ?hcond]
  case hcond =>
    intro heq
    apply hmagic
    simp only [be32dec, magicHead] at heq
    simp only [be32enc, magicHead, List.cons.injEq, and_true]
    refine ⟨by omega, by omega, by omega, by omega⟩

/-- Bytes of a list after an in-place byte update stay below 256. -/
theorem mem_set_lt (l : List Nat) (i b : Nat) (hl : ∀ x ∈ l, x < 256) (hb : b < 256) :
    ∀ x ∈ l.set i b, x < 256 := by
  intro x hx
  rcases Nat.lt_or_ge i l.length with hi | hi
  · rw [List.set_eq_take_cons_drop b hi] at hx
    rcases List.mem_append.mp hx with h | h
    · exact hl x (List.mem_of_mem_take h)
    · rcases List.mem_cons.mp h with rfl | h
      · exact hb
      · exact hl x (List.mem_of_mem_drop h)
  · rw [List.set_eq_of_length_le hi] at hx
    exact hl x hx

theorem Frame.headerBytes_take4 (f : Frame) :
    f.headerBytes.take 4 = be32enc magicHead := by
  unfold Frame.headerBytes
  simp only [List.append_assoc]
  rw [List.take_left' (be32enc_length magicHead)]

theorem Frame.headerBytes_drop12 (f : Frame) :
    f.headerBytes.drop 12 = be32enc (f.payload.length + trailerSize) := by
  unfold Frame.headerBytes
  rw [List.drop_left' (by simp [be32enc])]

/-- C5 amended: for a validly encoded well-formed frame, flipping any single
byte of the sequence, command, or payload fields makes Frame.Decode fail with
the checksum-mismatch error, and flipping any byte of the leading magic makes
it fail with the framing (bad prefix) error; the claim does not hold for the
length-field bytes (offsets 12 to 15), where a flip can produce other
errors. -/
theorem frame_flip_errors (f : Frame) (hWF : f.WF)
    (hlenMax : f.payload.length ≤ MaxPayloadSize) (i b : Nat) (hb : b < 256)
    (hne : b ≠ f.encodeBytes.getD i 0) :
    (i < 4 → Frame.decode 0 (f.encodeBytes.set i b) = .err .badHeadMagic) ∧
    (4 ≤ i ∧ i < 12 → Frame.decode 0 (f.encodeBytes.set i b) = .err .crcMismatch) ∧
    (16 ≤ i ∧ i < 16 + f.payload.length →
      Frame.decode 0 (f.encodeBytes.set i b) = .err .crcMismatch) := by
  obtain ⟨hseq, hcmd, hpay⟩ := hWF
  have hp32 : f.payload.length + trailerSize < 2 ^ 32 := by
    simp only [MaxPayloadSize, maxPacketSize, trailerSize] at hlenMax ⊢
    omega
  have hHlen : f.headerBytes.length = 16 := by
    simp [Frame.headerBytes, be32enc]
  have hHP : ∀ x ∈ f.headerBytes ++ f.payload, x < 256 := by
    intro x hx
    rcases List.mem_append.mp hx with h | h
    · exact f.headerBytes_mem_lt h
    · exact hpay x h
  have hcrcb : crc32 (f.headerBytes ++ f.payload) < 2 ^ 32 :=
    crc32_lt (fun x hx => lt_trans (hHP x hx) (by norm_num))
  have hHPlen : (f.headerBytes ++ f.payload).length = 16 + f.payload.length := by
    rw [List.length_append, hHlen]
  have hsetHdr : ∀ j, j < 16 → f.encodeBytes.set j b =
      f.headerBytes.set j b ++ (f.payload ++
        (be32enc (crc32 (f.headerBytes ++ f.payload)) ++ be32enc magicTail)) := by
    intro j hj
    unfold Frame.encodeBytes
    rw [List.set_append_left _ _ (by
        simp only [List.length_append, hHlen, be32enc_length]
        omega),
      List.set_append_left _ _ (by rw [hHPlen]; omega),
      List.set_append_left _ _ (by rw [hHlen]; exact hj)]
    simp only [List.append_assoc]
  have hsetPay : ∀ k, k < f.payload.length → f.encodeBytes.set (16 + k) b =
      f.headerBytes ++ (f.payload.set k b ++
        (be32enc (crc32 (f.headerBytes ++ f.payload)) ++ be32enc magicTail)) := by
    intro k hk
    unfold Frame.encodeBytes
    rw [List.set_append_left _ _ (by
        simp only [List.length_append, hHlen, be32enc_length]
        omega),
      List.set_append_left _ _ (by rw [hHPlen]; omega),
      List.set_append_right _ _ (by rw [hHlen]; omega)]
    rw [hHlen]
    simp only [Nat.add_sub_cancel_left, List.append_assoc]
  have hgetHdr : ∀ j, j < 16 → f.encodeBytes.getD j 0 = f.headerBytes.getD j 0 := by
    intro j hj
    unfold Frame.encodeBytes
    simp only [List.getD_eq_getElem?_getD]
    rw [List.getElem?_append_left (by
        simp only [List.length_append, hHlen, be32enc_length]
        omega),
      List.getElem?_append_left (by rw [hHPlen]; omega),
      List.getElem?_append_left (by rw [hHlen]; exact hj)]
  have hgetPay : ∀ k, k < f.payload.length →
      f.encodeBytes.getD (16 + k) 0 = f.payload.getD k 0 := by
    intro k hk
    unfold Frame.encodeBytes
    simp only [List.getD_eq_getElem?_getD]
    rw [List.getElem?_append_left (by
        simp only [List.length_append, hHlen, be32enc_length]
        omega),
      List.getElem?_append_left (by rw [hHPlen]; omega),
      List.getElem?_append_right (by rw [hHlen]; omega)]
    rw [hHlen]
    simp only [Nat.add_sub_cancel_left]
  have hCT : be32enc (crc32 (f.headerBytes ++ f.payload)) ++ be32enc magicTail =
      [crc32 (f.headerBytes ++ f.payload) / 2 ^ 24 % 256,
       crc32 (f.headerBytes ++ f.payload) / 2 ^ 16 % 256,
       crc32 (f.headerBytes ++ f.payload) / 2 ^ 8 % 256,
       crc32 (f.headerBytes ++ f.payload) % 256,
       magicTail / 2 ^ 24 % 256, magicTail / 2 ^ 16 % 256,
       magicTail / 2 ^ 8 % 256, magicTail % 256] := by
    simp [be32enc]
  have hgetHP : ∀ j, j < 16 →
      (f.headerBytes ++ f.payload).getD j 0 = f.headerBytes.getD j 0 := by
    intro j hj
    simp only [List.getD_eq_getElem?_getD]
    rw [List.getElem?_append_left (by rw [hHlen]; exact hj)]
  refine ⟨?_, ?_, ?_⟩
  · intro h4
    rw [hsetHdr i (by omega)]
    apply Frame.decode_badMagic_listHeader 0 _ (by rw [List.length_set]; exact hHlen) _
      (mem_set_lt _ i b (fun x hx => f.headerBytes_mem_lt hx) hb)
    rw [List.set_take, f.headerBytes_take4]
    have hne' : b ≠ (be32enc magicHead).getD i 0 := by
      have h1 : f.encodeBytes.getD i 0 = f.headerBytes.getD i 0 := hgetHdr i (by omega)
      have h2 : f.headerBytes.getD i 0 = (f.headerBytes.take 4).getD i 0 := by
        simp only [List.getD_eq_getElem?_getD]
        rw [List.getElem?_take_of_lt (by omega)]
      rw [h1, h2, f.headerBytes_take4] at hne
      exact hne
    interval_cases i <;>
      (simp only [be32enc, List.set_cons_zero, List.set_cons_succ,
         List.getD_cons_zero, List.getD_cons_succ] at hne' ⊢
       intro hcontra
       simp only [List.cons.injEq, and_true, true_and, and_self] at hcontra
       exact hne' hcontra)
  · rintro ⟨h4, h12⟩
    rw [hsetHdr i (by omega), hCT]
    have hdec := Frame.decode_structured_listHeader 0 (f.headerBytes.set i b)
      (by rw [List.length_set]; exact hHlen)
      (crc32 (f.headerBytes ++ f.payload) / 2 ^ 24 % 256)
      (crc32 (f.headerBytes ++ f.payload) / 2 ^ 16 % 256)
      (crc32 (f.headerBytes ++ f.payload) / 2 ^ 8 % 256)
      (crc32 (f.headerBytes ++ f.payload) % 256)
      (magicTail / 2 ^ 24 % 256) (magicTail / 2 ^ 16 % 256)
      (magicTail / 2 ^ 8 % 256) (magicTail % 256)
      f.payload
      (by
        rw [List.set_take, f.headerBytes_take4]
        exact List.set_eq_of_length_le (by rw [be32enc_length]; omega))
      (by
        rw [List.drop_set, if_pos (by omega)]
        exact f.headerBytes_drop12)
      hp32
      (Or.inl hlenMax)
      (be32dec_be32enc magicTail (by decide))
    rw [hdec]
    have hc : crc32 (f.headerBytes.set i b ++ f.payload) ≠
        be32dec (crc32 (f.headerBytes ++ f.payload) / 2 ^ 24 % 256)
          (crc32 (f.headerBytes ++ f.payload) / 2 ^ 16 % 256)
          (crc32 (f.headerBytes ++ f.payload) / 2 ^ 8 % 256)
          (crc32 (f.headerBytes ++ f.payload) % 256) := by
      rw [be32dec_be32enc _ hcrcb]
      rw [← List.set_append_left _ _ (by rw [hHlen]; omega)]
      apply crc32_set_ne (f.headerBytes ++ f.payload) i b (by rw [hHPlen]; omega) hHP hb
      rw [hgetHP i (by omega), ← hgetHdr i (by omega)]
      exact hne
    rw [if_neg hc]
  · rintro ⟨h16, hlt⟩
    obtain ⟨k, rfl⟩ : ∃ k, i = 16 + k := ⟨i - 16, by omega⟩
    have hk : k < f.payload.length := by omega
    rw [hsetPay k hk, hCT]
    have hdec := Frame.decode_structured_listHeader 0 f.headerBytes hHlen
      (crc32 (f.headerBytes ++ f.payload) / 2 ^ 24 % 256)
      (crc32 (f.headerBytes ++ f.payload) / 2 ^ 16 % 256)
      (crc32 (f.headerBytes ++ f.payload) / 2 ^ 8 % 256)
      (crc32 (f.headerBytes ++ f.payload) % 256)
      (magicTail / 2 ^ 24 % 256) (magicTail / 2 ^ 16 % 256)
      (magicTail / 2 ^ 8 % 256) (magicTail % 256)
      (f.payload.set k b)
      (f.headerBytes_take4)
      (by rw [List.length_set]; exact f.headerBytes_drop12)
      (by rw [List.length_set]; exact hp32)
      (Or.inl (by rw [List.length_set]; exact hlenMax))
      (be32dec_be32enc magicTail (by decide))
    rw [hdec]
    have hpayset : f.headerBytes ++ f.payload.set k b =
        (f.headerBytes ++ f.payload).set (16 + k) b := by
      rw [List.set_append_right _ _ (by rw [hHlen]; omega), hHlen]
      simp only [Nat.add_sub_cancel_left]
    have hc : crc32 (f.headerBytes ++ f.payload.set k b) ≠
        be32dec (crc32 (f.headerBytes ++ f.payload) / 2 ^ 24 % 256)
          (crc32 (f.headerBytes ++ f.payload) / 2 ^ 16 % 256)
          (crc32 (f.headerBytes ++ f.payload) / 2 ^ 8 % 256)
          (crc32 (f.headerBytes ++ f.payload) % 256) := by
      rw [be32dec_be32enc _ hcrcb, hpayset]
      apply crc32_set_ne (f.headerBytes ++ f.payload) (16 + k) b
        (by rw [hHPlen]; omega) hHP hb
      have hgp : (f.headerBytes ++ f.payload).getD (16 + k) 0 = f.payload.getD k 0 := by
        simp only [List.getD_eq_getElem?_getD]
        rw [List.getElem?_append_right (by rw [hHlen]; omega), hHlen]
        simp only [Nat.add_sub_cancel_left]
      rw [hgp, ← hgetPay k hk]
      exact hne
    rw [if_neg hc]

/-- Witness for the amended C5 at the frame with sequence 1, command 2 and
payload [42], flipping header byte 5 (a sequence byte) to 7. -/
theorem frame_flip_errors_witness :
    Frame.WF ⟨1, 2, [42]⟩ ∧ (7 : Nat) < 256 ∧
      (7 : Nat) ≠ (Frame.encodeBytes ⟨1, 2, [42]⟩).getD 5 0 ∧
      Frame.decode 0 ((Frame.encodeBytes ⟨1, 2, [42]⟩).set 5 7) = .err .crcMismatch := by
  refine ⟨⟨by norm_num, by norm_num, by decide⟩, by norm_num, by decide, ?_⟩
  exact (frame_flip_errors ⟨1, 2, [42]⟩ ⟨by norm_num, by norm_num, by decide⟩
    (by decide) 5 7 (by norm_num) (by decide)).2.1 ⟨by norm_num, by norm_num⟩


/-! AES (FIPS-197), as used by crypto/aes, over bytes as naturals. -/

/-- Multiplication by x in GF(2^8) modulo the AES polynomial. -/
def xtime (t : Nat) : Nat := ((2 * t) ^^^ (if t.testBit 7 then 27 else 0)) % 256

/-- The AES S-box. -/
def sbox : List Nat :=
  [99, 124, 119, 123, 242, 107, 111, 197, 48, 1, 103, 43, 254, 215, 171, 118, 202, 130, 201, 125, 250, 89, 71, 240, 173, 212, 162, 175, 156, 164, 114, 192, 183, 253, 147, 38, 54, 63, 247, 204, 52, 165, 229, 241, 113, 216, 49, 21, 4, 199, 35, 195, 24, 150, 5, 154, 7, 18, 128, 226, 235, 39, 178, 117, 9, 131, 44, 26, 27, 110, 90, 160, 82, 59, 214, 179, 41, 227, 47, 132, 83, 209, 0, 237, 32, 252, 177, 91, 106, 203, 190, 57, 74, 76, 88, 207, 208, 239, 170, 251, 67, 77, 51, 133, 69, 249, 2, 127, 80, 60, 159, 168, 81, 163, 64, 143, 146, 157, 56, 245, 188, 182, 218, 33, 16, 255, 243, 210, 205, 12, 19, 236, 95, 151, 68, 23, 196, 167, 126, 61, 100, 93, 25, 115, 96, 129, 79, 220, 34, 42, 144, 136, 70, 238, 184, 20, 222, 94, 11, 219, 224, 50, 58, 10, 73, 6, 36, 92, 194, 211, 172, 98, 145, 149, 228, 121, 231, 200, 55, 109, 141, 213, 78, 169, 108, 86, 244, 234, 101, 122, 174, 8, 186, 120, 37, 46, 28, 166, 180, 198, 232, 221, 116, 31, 75, 189, 139, 138, 112, 62, 181, 102, 72, 3, 246, 14, 97, 53, 87, 185, 134, 193, 29, 158, 225, 248, 152, 17, 105, 217, 142, 148, 155, 30, 135, 233, 206, 85, 40, 223, 140, 161, 137, 13, 191, 230, 66, 104, 65, 153, 45, 15, 176, 84, 187, 22]

/-- The inverse AES S-box. -/
def invSbox : List Nat :=
  [82, 9, 106, 213, 48, 54, 165, 56, 191, 64, 163, 158, 129, 243, 215, 251, 124, 227, 57, 130, 155, 47, 255, 135, 52, 142, 67, 68, 196, 222, 233, 203, 84, 123, 148, 50, 166, 194, 35, 61, 238, 76, 149, 11, 66, 250, 195, 78, 8, 46, 161, 102, 40, 217, 36, 178, 118, 91, 162, 73, 109, 139, 209, 37, 114, 248, 246, 100, 134, 104, 152, 22, 212, 164, 92, 204, 93, 101, 182, 146, 108, 112, 72, 80, 253, 237, 185, 218, 94, 21, 70, 87, 167, 141, 157, 132, 144, 216, 171, 0, 140, 188, 211, 10, 247, 228, 88, 5, 184, 179, 69, 6, 208, 44, 30, 143, 202, 63, 15, 2, 193, 175, 189, 3, 1, 19, 138, 107, 58, 145, 17, 65, 79, 103, 220, 234, 151, 242, 207, 206, 240, 180, 230, 115, 150, 172, 116, 34, 231, 173, 53, 133, 226, 249, 55, 232, 28, 117, 223, 110, 71, 241, 26, 113, 29, 41, 197, 137, 111, 183, 98, 14, 170, 24, 190, 27, 252, 86, 62, 75, 198, 210, 121, 32, 154, 219, 192, 254, 120, 205, 90, 244, 31, 221, 168, 51, 136, 7, 199, 49, 177, 18, 16, 89, 39, 128, 236, 95, 96, 81, 127, 169, 25, 181, 74, 13, 45, 229, 122, 159, 147, 201, 156, 239, 160, 224, 59, 77, 174, 42, 245, 176, 200, 235, 187, 60, 131, 83, 153, 97, 23, 43, 4, 126, 186, 119, 214, 38, 225, 105, 20, 99, 85, 33, 12, 125]

def sboxF (b : Nat) : Nat := sbox.getD b 0

def invSboxF (s : Nat) : Nat := invSbox.getD s 0

/-- Multiplication by 2, 3, 4, 8, 9, 11, 13 and 14 in GF(2^8). -/
def m2 (t : Nat) : Nat := xtime t

def m3 (t : Nat) : Nat := xtime t ^^^ t

def m4 (t : Nat) : Nat := xtime (xtime t)

def m8 (t : Nat) : Nat := xtime (xtime (xtime t))

def m9 (t : Nat) : Nat := m8 t ^^^ t

def m11 (t : Nat) : Nat := m8 t ^^^ m2 t ^^^ t

def m13 (t : Nat) : Nat := m8 t ^^^ m4 t ^^^ t

def m14 (t : Nat) : Nat := m8 t ^^^ m4 t ^^^ m2 t

/-- MixColumns output components for one column. -/
def mc0 (x0 x1 x2 x3 : Nat) : Nat := m2 x0 ^^^ m3 x1 ^^^ x2 ^^^ x3

def mc1 (x0 x1 x2 x3 : Nat) : Nat := x0 ^^^ m2 x1 ^^^ m3 x2 ^^^ x3

def mc2 (x0 x1 x2 x3 : Nat) : Nat := x0 ^^^ x1 ^^^ m2 x2 ^^^ m3 x3

def mc3 (x0 x1 x2 x3 : Nat) : Nat := m3 x0 ^^^ x1 ^^^ x2 ^^^ m2 x3

/-- Inverse MixColumns output components for one column. -/
def ic0 (x0 x1 x2 x3 : Nat) : Nat := m14 x0 ^^^ m11 x1 ^^^ m13 x2 ^^^ m9 x3

def ic1 (x0 x1 x2 x3 : Nat) : Nat := m9 x0 ^^^ m14 x1 ^^^ m11 x2 ^^^ m13 x3

def ic2 (x0 x1 x2 x3 : Nat) : Nat := m13 x0 ^^^ m9 x1 ^^^ m14 x2 ^^^ m11 x3

def ic3 (x0 x1 x2 x3 : Nat) : Nat := m11 x0 ^^^ m13 x1 ^^^ m9 x2 ^^^ m14 x3

/-- An AES state or round key: 16 bytes in input (column-major) order. -/
structure B16 where
  b0 : Nat
  b1 : Nat
  b2 : Nat
  b3 : Nat
  b4 : Nat
  b5 : Nat
  b6 : Nat
  b7 : Nat
  b8 : Nat
  b9 : Nat
  b10 : Nat
  b11 : Nat
  b12 : Nat
  b13 : Nat
  b14 : Nat
  b15 : Nat
  deriving DecidableEq

def subBytes (s : B16) : B16 := ⟨sboxF s.b0, sboxF s.b1, sboxF s.b2, sboxF s.b3, sboxF s.b4, sboxF s.b5, sboxF s.b6, sboxF s.b7, sboxF s.b8, sboxF s.b9, sboxF s.b10, sboxF s.b11, sboxF s.b12, sboxF s.b13, sboxF s.b14, sboxF s.b15⟩

def invSubBytes (s : B16) : B16 := ⟨invSboxF s.b0, invSboxF s.b1, invSboxF s.b2, invSboxF s.b3, invSboxF s.b4, invSboxF s.b5, invSboxF s.b6, invSboxF s.b7, invSboxF s.b8, invSboxF s.b9, invSboxF s.b10, invSboxF s.b11, invSboxF s.b12, invSboxF s.b13, invSboxF s.b14, invSboxF s.b15⟩

def shiftRows (s : B16) : B16 := ⟨s.b0, s.b5, s.b10, s.b15, s.b4, s.b9, s.b14, s.b3, s.b8, s.b13, s.b2, s.b7, s.b12, s.b1, s.b6, s.b11⟩

def invShiftRows (s : B16) : B16 := ⟨s.b0, s.b13, s.b10, s.b7, s.b4, s.b1, s.b14, s.b11, s.b8, s.b5, s.b2, s.b15, s.b12, s.b9, s.b6, s.b3⟩

def addRoundKey (s k : B16) : B16 := ⟨s.b0 ^^^ k.b0, s.b1 ^^^ k.b1, s.b2 ^^^ k.b2, s.b3 ^^^ k.b3, s.b4 ^^^ k.b4, s.b5 ^^^ k.b5, s.b6 ^^^ k.b6, s.b7 ^^^ k.b7, s.b8 ^^^ k.b8, s.b9 ^^^ k.b9, s.b10 ^^^ k.b10, s.b11 ^^^ k.b11, s.b12 ^^^ k.b12, s.b13 ^^^ k.b13, s.b14 ^^^ k.b14, s.b15 ^^^ k.b15⟩

def mixColumns (s : B16) : B16 := ⟨mc0 s.b0 s.b1 s.b2 s.b3, mc1 s.b0 s.b1 s.b2 s.b3, mc2 s.b0 s.b1 s.b2 s.b3, mc3 s.b0 s.b1 s.b2 s.b3, mc0 s.b4 s.b5 s.b6 s.b7, mc1 s.b4 s.b5 s.b6 s.b7, mc2 s.b4 s.b5 s.b6 s.b7, mc3 s.b4 s.b5 s.b6 s.b7, mc0 s.b8 s.b9 s.b10 s.b11, mc1 s.b8 s.b9 s.b10 s.b11, mc2 s.b8 s.b9 s.b10 s.b11, mc3 s.b8 s.b9 s.b10 s.b11, mc0 s.b12 s.b13 s.b14 s.b15, mc1 s.b12 s.b13 s.b14 s.b15, mc2 s.b12 s.b13 s.b14 s.b15, mc3 s.b12 s.b13 s.b14 s.b15⟩

def invMixColumns (s : B16) : B16 := ⟨ic0 s.b0 s.b1 s.b2 s.b3, ic1 s.b0 s.b1 s.b2 s.b3, ic2 s.b0 s.b1 s.b2 s.b3, ic3 s.b0 s.b1 s.b2 s.b3, ic0 s.b4 s.b5 s.b6 s.b7, ic1 s.b4 s.b5 s.b6 s.b7, ic2 s.b4 s.b5 s.b6 s.b7, ic3 s.b4 s.b5 s.b6 s.b7, ic0 s.b8 s.b9 s.b10 s.b11, ic1 s.b8 s.b9 s.b10 s.b11, ic2 s.b8 s.b9 s.b10 s.b11, ic3 s.b8 s.b9 s.b10 s.b11, ic0 s.b12 s.b13 s.b14 s.b15, ic1 s.b12 s.b13 s.b14 s.b15, ic2 s.b12 s.b13 s.b14 s.b15, ic3 s.b12 s.b13 s.b14 s.b15⟩

def toB16 (l : List Nat) : B16 := ⟨l.getD 0 0, l.getD 1 0, l.getD 2 0, l.getD 3 0, l.getD 4 0, l.getD 5 0, l.getD 6 0, l.getD 7 0, l.getD 8 0, l.getD 9 0, l.getD 10 0, l.getD 11 0, l.getD 12 0, l.getD 13 0, l.getD 14 0, l.getD 15 0⟩

def B16.toList (s : B16) : List Nat := [s.b0, s.b1, s.b2, s.b3, s.b4, s.b5, s.b6, s.b7, s.b8, s.b9, s.b10, s.b11, s.b12, s.b13, s.b14, s.b15]

/-- Key schedule helpers: rotate, substitute, and xor words of four bytes. -/
def rotW : List Nat → List Nat
  | a :: rest => rest ++ [a]
  | [] => []

def subW (w : List Nat) : List Nat := w.map sboxF

def xorW (a b : List Nat) : List Nat := a.zipWith (· ^^^ ·) b

/-- Powers of x in GF(2^8) (the round-constant bytes). -/
def powx : Nat → Nat
  | 0 => 1
  | n + 1 => xtime (powx n)

/-- The next word of the key schedule, given the previous words
(FIPS-197 key expansion). -/
def nextWord (key : List Nat) (nk : Nat) (prev : List (List Nat)) (i : Nat) : List Nat :=
  if i < nk then (key.drop (4 * i)).take 4
  else if nk = 0 then [0, 0, 0, 0]
  else
    let t := prev.getD (i - 1) []
    let t2 :=
      if i % nk = 0 then xorW (subW (rotW t)) [powx (i / nk - 1), 0, 0, 0]
      else if 6 < nk ∧ i % nk = 4 then subW t
      else t
    xorW (prev.getD (i - nk) []) t2

/-- The first n words of the key schedule. -/
def expandWords (key : List Nat) (nk : Nat) : Nat → List (List Nat)
  | 0 => []
  | i + 1 =>
    let prev := expandWords key nk i
    prev ++ [nextWord key nk prev i]

/-- Round key i assembled from four schedule words, column-major. -/
def roundKey (ws : List (List Nat)) (i : Nat) : B16 :=
  let w0 := ws.getD (4 * i) []
  let w1 := ws.getD (4 * i + 1) []
  let w2 := ws.getD (4 * i + 2) []
  let w3 := ws.getD (4 * i + 3) []
  ⟨w0.getD 0 0, w0.getD 1 0, w0.getD 2 0, w0.getD 3 0,
   w1.getD 0 0, w1.getD 1 0, w1.getD 2 0, w1.getD 3 0,
   w2.getD 0 0, w2.getD 1 0, w2.getD 2 0, w2.getD 3 0,
   w3.getD 0 0, w3.getD 1 0, w3.getD 2 0, w3.getD 3 0⟩

/-- All round keys for a key of 16, 24 or 32 bytes. -/
def roundKeys (key : List Nat) : List B16 :=
  let nk := key.length / 4
  let ws := expandWords key nk (4 * (nk + 7))
  (List.range (nk + 7)).map (roundKey ws)

/-- Middle and final rounds of the AES cipher, one round key per entry. -/
def encRounds : List B16 → B16 → B16
  | [], s => s
  | [k], s => addRoundKey (shiftRows (subBytes s)) k
  | k :: ks, s => encRounds ks (addRoundKey (mixColumns (shiftRows (subBytes s))) k)

/-- AES block encryption: initial round key, then the rounds. -/
def encryptBlock (rks : List B16) (s : B16) : B16 :=
  match rks with
  | [] => s
  | k :: ks => encRounds ks (addRoundKey s k)

/-- Inverse of `encRounds`, unwinding the rounds from the last one. -/
def invEncRounds : List B16 → B16 → B16
  | [], s => s
  | [k], s => invSubBytes (invShiftRows (addRoundKey s k))
  | k :: ks, s => invSubBytes (invShiftRows (invMixColumns (addRoundKey (invEncRounds ks s) k)))

/-- AES block decryption (the inverse cipher). -/
def decryptBlock (rks : List B16) (s : B16) : B16 :=
  match rks with
  | [] => s
  | k :: ks => addRoundKey (invEncRounds ks s) k

/-- ECB over consecutive 16-byte blocks, as the loops in Encrypt/Decrypt.
The fuel argument only drives structural recursion; it is initialized to the
input length, which bounds the number of blocks. -/
def ecbEncryptGo (rks : List B16) : Nat → List Nat → List Nat
  | _, [] => []
  | 0, _ :: _ => []
  | fuel + 1, a :: rest =>
    (encryptBlock rks (toB16 ((a :: rest).take 16))).toList ++
      ecbEncryptGo rks fuel ((a :: rest).drop 16)

def ecbEncrypt (rks : List B16) (l : List Nat) : List Nat := ecbEncryptGo rks l.length l

def ecbDecryptGo (rks : List B16) : Nat → List Nat → List Nat
  | _, [] => []
  | 0, _ :: _ => []
  | fuel + 1, a :: rest =>
    (decryptBlock rks (toB16 ((a :: rest).take 16))).toList ++
      ecbDecryptGo rks fuel ((a :: rest).drop 16)

def ecbDecrypt (rks : List B16) (l : List Nat) : List Nat := ecbDecryptGo rks l.length l

/-! Standard base64 (encoding/base64 StdEncoding). -/

/-- The standard base64 alphabet, as ASCII codes. -/
def b64alphabet : List Nat := [65, 66, 67, 68, 69, 70, 71, 72, 73, 74, 75, 76, 77, 78, 79, 80, 81, 82, 83, 84, 85, 86, 87, 88, 89, 90, 97, 98, 99, 100, 101, 102, 103, 104, 105, 106, 107, 108, 109, 110, 111, 112, 113, 114, 115, 116, 117, 118, 119, 120, 121, 122, 48, 49, 50, 51, 52, 53, 54, 55, 56, 57, 43, 47]

def encChar (s : Nat) : Nat := b64alphabet.getD s 0

def decChar (c : Nat) : Option Nat := b64alphabet.indexOf? c

/-- Standard base64 encoding with padding. -/
def b64encode : List Nat → List Nat
  | a :: b :: c :: rest =>
    encChar (a / 4) :: encChar (a % 4 * 16 + b / 16) :: encChar (b % 16 * 4 + c / 64) ::
      encChar (c % 64) :: b64encode rest
  | [a, b] => [encChar (a / 4), encChar (a % 4 * 16 + b / 16), encChar (b % 16 * 4), 61]
  | [a] => [encChar (a / 4), encChar (a % 4 * 16), 61, 61]
  | [] => []

/-- Standard base64 decoding with padding. -/
def b64decode : List Nat → Option (List Nat)
  | [] => some []
  | w :: x :: y :: z :: rest =>
    match decChar w, decChar x with
    | some dw, some dx =>
      if z = 61 then
        if rest ≠ [] then none
        else if y = 61 then some [dw * 4 + dx / 16]
        else
          match decChar y with
          | some dy => some [dw * 4 + dx / 16, dx % 16 * 16 + dy / 4]
          | none => none
      else
        match decChar y, decChar z with
        | some dy, some dz =>
          match b64decode rest with
          | some tail => some ((dw * 4 + dx / 16) :: (dx % 16 * 16 + dy / 4) ::
              (dy % 4 * 64 + dz) :: tail)
          | none => none
        | _, _ => none
    | _, _ => none
  | _ => none

/-- EncodedLen of encoding/base64 with padding. -/
def encodedLen (n : Nat) : Nat := (n + 2) / 3 * 4

/-! MD5 (crypto/md5), little-endian words as naturals below 2^32. -/

def le32dec (a b c d : Nat) : Nat := a + b * 256 + c * 65536 + d * 16777216

def le32enc (n : Nat) : List Nat := [n % 256, n / 256 % 256, n / 65536 % 256, n / 16777216 % 256]

def le64enc (n : Nat) : List Nat :=
  [n % 256, n / 2 ^ 8 % 256, n / 2 ^ 16 % 256, n / 2 ^ 24 % 256,
   n / 2 ^ 32 % 256, n / 2 ^ 40 % 256, n / 2 ^ 48 % 256, n / 2 ^ 56 % 256]

/-- Rotate a 32-bit value left by s bits. -/
def rotl32 (x s : Nat) : Nat := x * 2 ^ s % 2 ^ 32 + x / 2 ^ (32 - s)

def mF (b c d : Nat) : Nat := b &&& c ||| (0xFFFFFFFF ^^^ b) &&& d

def mG (b c d : Nat) : Nat := d &&& b ||| (0xFFFFFFFF ^^^ d) &&& c

def mH (b c d : Nat) : Nat := b ^^^ c ^^^ d

def mI (b c d : Nat) : Nat := c ^^^ (b ||| (0xFFFFFFFF ^^^ d))

/-- One MD5 operation. -/
def mdStep (f : Nat → Nat → Nat → Nat) (a b c d k w s : Nat) : Nat :=
  (b + rotl32 ((a + f b c d + k + w) % 2 ^ 32) s) % 2 ^ 32

/-- One MD5 compression round over the sixteen words of a 64-byte block. -/
def md5Block (a0 b0 c0 d0 w0 w1 w2 w3 w4 w5 w6 w7 w8 w9 w10 w11 w12 w13 w14 w15 : Nat) : Nat × Nat × Nat × Nat :=
  let a := a0
  let b := b0
  let c := c0
  let d := d0
  let a := mdStep mF a b c d 3614090360 w0 7
  let d := mdStep mF d a b c 3905402710 w1 12
  let c := mdStep mF c d a b 606105819 w2 17
  let b := mdStep mF b c d a 3250441966 w3 22
  let a := mdStep mF a b c d 4118548399 w4 7
  let d := mdStep mF d a b c 1200080426 w5 12
  let c := mdStep mF c d a b 2821735955 w6 17
  let b := mdStep mF b c d a 4249261313 w7 22
  let a := mdStep mF a b c d 1770035416 w8 7
  let d := mdStep mF d a b c 2336552879 w9 12
  let c := mdStep mF c d a b 4294925233 w10 17
  let b := mdStep mF b c d a 2304563134 w11 22
  let a := mdStep mF a b c d 1804603682 w12 7
  let d := mdStep mF d a b c 4254626195 w13 12
  let c := mdStep mF c d a b 2792965006 w14 17
  let b := mdStep mF b c d a 1236535329 w15 22
  let a := mdStep mG a b c d 4129170786 w1 5
  let d := mdStep mG d a b c 3225465664 w6 9
  let c := mdStep mG c d a b 643717713 w11 14
  let b := mdStep mG b c d a 3921069994 w0 20
  let a := mdStep mG a b c d 3593408605 w5 5
  let d := mdStep mG d a b c 38016083 w10 9
  let c := mdStep mG c d a b 3634488961 w15 14
  let b := mdStep mG b c d a 3889429448 w4 20
  let a := mdStep mG a b c d 568446438 w9 5
  let d := mdStep mG d a b c 3275163606 w14 9
  let c := mdStep mG c d a b 4107603335 w3 14
  let b := mdStep mG b c d a 1163531501 w8 20
  let a := mdStep mG a b c d 2850285829 w13 5
  let d := mdStep mG d a b c 4243563512 w2 9
  let c := mdStep mG c d a b 1735328473 w7 14
  let b := mdStep mG b c d a 2368359562 w12 20
  let a := mdStep mH a b c d 4294588738 w5 4
  let d := mdStep mH d a b c 2272392833 w8 11
  let c := mdStep mH c d a b 1839030562 w11 16
  let b := mdStep mH b c d a 4259657740 w14 23
  let a := mdStep mH a b c d 2763975236 w1 4
  let d := mdStep mH d a b c 1272893353 w4 11
  let c := mdStep mH c d a b 4139469664 w7 16
  let b := mdStep mH b c d a 3200236656 w10 23
  let a := mdStep mH a b c d 681279174 w13 4
  let d := mdStep mH d a b c 3936430074 w0 11
  let c := mdStep mH c d a b 3572445317 w3 16
  let b := mdStep mH b c d a 76029189 w6 23
  let a := mdStep mH a b c d 3654602809 w9 4
  let d := mdStep mH d a b c 3873151461 w12 11
  let c := mdStep mH c d a b 530742520 w15 16
  let b := mdStep mH b c d a 3299628645 w2 23
  let a := mdStep mI a b c d 4096336452 w0 6
  let d := mdStep mI d a b c 1126891415 w7 10
  let c := mdStep mI c d a b 2878612391 w14 15
  let b := mdStep mI b c d a 4237533241 w5 21
  let a := mdStep mI a b c d 1700485571 w12 6
  let d := mdStep mI d a b c 2399980690 w3 10
  let c := mdStep mI c d a b 4293915773 w10 15
  let b := mdStep mI b c d a 2240044497 w1 21
  let a := mdStep mI a b c d 1873313359 w8 6
  let d := mdStep mI d a b c 4264355552 w15 10
  let c := mdStep mI c d a b 2734768916 w6 15
  let b := mdStep mI b c d a 1309151649 w13 21
  let a := mdStep mI a b c d 4149444226 w4 6
  let d := mdStep mI d a b c 3174756917 w11 10
  let c := mdStep mI c d a b 718787259 w2 15
  let b := mdStep mI b c d a 3951481745 w9 21
  ((a0 + a) % 2 ^ 32, (b0 + b) % 2 ^ 32, (c0 + c) % 2 ^ 32, (d0 + d) % 2 ^ 32)

/-- Split the leading four bytes of a stream as one little-endian word. -/
def le32of : List Nat → Nat × List Nat
  | a :: b :: c :: d :: rest => (le32dec a b c d, rest)
  | _ => (0, [])

def md5ChunksGo : Nat → Nat × Nat × Nat × Nat → List Nat → Nat × Nat × Nat × Nat
  | _, h, [] => h
  | 0, h, _ :: _ => h
  | fuel + 1, h, a :: rest =>
    let p0 := le32of (a :: rest)
    let p1 := le32of p0.2
    let p2 := le32of p1.2
    let p3 := le32of p2.2
    let p4 := le32of p3.2
    let p5 := le32of p4.2
    let p6 := le32of p5.2
    let p7 := le32of p6.2
    let p8 := le32of p7.2
    let p9 := le32of p8.2
    let p10 := le32of p9.2
    let p11 := le32of p10.2
    let p12 := le32of p11.2
    let p13 := le32of p12.2
    let p14 := le32of p13.2
    let p15 := le32of p14.2
    md5ChunksGo fuel
      (md5Block h.1 h.2.1 h.2.2.1 h.2.2.2 p0.1 p1.1 p2.1 p3.1 p4.1 p5.1
        p6.1 p7.1 p8.1 p9.1 p10.1 p11.1 p12.1 p13.1 p14.1 p15.1)
      ((a :: rest).drop 64)

/-- MD5 digest of a byte string. -/
def md5 (msg : List Nat) : List Nat :=
  let padded := msg ++ 128 :: (List.replicate ((119 - msg.length % 64) % 64) 0 ++
    le64enc (8 * msg.length))
  let h := md5ChunksGo padded.length (0x67452301, 0xefcdab89, 0x98badcfe, 0x10325476) padded
  le32enc h.1 ++ le32enc h.2.1 ++ le32enc h.2.2.1 ++ le32enc h.2.2.2

def version : List Nat := [51, 46, 49]
def tagSize : Nat := 16

structure Cipher where
  key : List Nat

def hexDigit (n : Nat) : Nat := if n < 10 then 48 + n else 87 + n
def hexByte (b : Nat) : List Nat := [hexDigit (b / 16), hexDigit (b % 16)]

def macTag (key data : List Nat) : List Nat :=
  let digest := md5 ([100, 97, 116, 97, 61] ++ data ++
    [124, 124, 108, 112, 118, 61] ++ version ++ [124, 124] ++ key)
  ((digest.drop 4).take 8).foldr (fun b acc => hexByte b ++ acc) []

def Cipher.Encrypt (c : Cipher) (plaintext : List Nat) : List Nat :=
  let padSize := 16 - plaintext.length % 16
  let padded := plaintext ++ List.replicate padSize padSize
  let encoded := b64encode (ecbEncrypt (roundKeys c.key) padded)
  version ++ macTag c.key encoded ++ encoded

inductive DecryptError where
  | tooSmall | badVersion | tagVerification | base64 | padding
  deriving DecidableEq

inductive DecryptResult where
  | ok (p : List Nat)
  | err (e : DecryptError)
  | panic
  deriving DecidableEq

def Cipher.Decrypt (c : Cipher) (ciphertext : List Nat) : DecryptResult :=
  if ciphertext.length < 3 + tagSize + encodedLen 16 then .err .tooSmall
  else if ciphertext.take 3 ≠ version then .err .badVersion
  else
    let tag := (ciphertext.drop 3).take tagSize
    let b64data := (ciphertext.drop 3).drop tagSize
    if tag ≠ macTag c.key b64data then .err .tagVerification
    else
      match b64decode b64data with
      | none => .err .base64
      | some pt =>
        if pt.length % 16 ≠ 0 then .panic
        else if pt.length = 0 then .panic
        else
          let ptd := ecbDecrypt (roundKeys c.key) pt
          let padSize := ptd.getD (ptd.length - 1) 0
          if padSize < 1 ∨ padSize > 16 then .err .padding
          else if ¬ ((ptd.drop (ptd.length - padSize)).take (padSize - 1)).all
              (fun x => x == padSize) then .err .padding
          else .ok (ptd.take (ptd.length - padSize))

/-- The test key "bbe88b3f4106d354" from the crypto tests, as bytes. -/
def testKey : List Nat := [98, 98, 101, 56, 56, 98, 51, 102, 52, 49, 48, 54, 100, 51, 53, 52]

/-- The published test plaintext from the crypto tests, as bytes. -/
def testPlaintext : List Nat :=
  [123, 34, 100, 101, 118, 73, 100, 34, 58, 34, 48, 48, 50, 48, 48, 52, 50, 54, 53, 99, 99, 102, 55, 102, 98, 49, 98, 54, 53, 57, 34, 44, 34, 100, 112, 115, 34, 58, 123, 34, 49, 34, 58, 102, 97, 108, 115, 101, 44, 34, 50, 34, 58, 48, 125, 44, 34, 116, 34, 58, 49, 53, 50, 57, 52, 52, 50, 51, 54, 54, 44, 34, 115, 34, 58, 56, 125]

/-- The published test ciphertext envelope from the crypto tests, as bytes. -/
def testCiphertext : List Nat :=
  [51, 46, 49, 51, 51, 101, 100, 51, 100, 52, 97, 50, 49, 101, 102, 102, 101, 57, 48, 122, 114, 65, 56, 79, 75, 51, 114, 51, 74, 77, 105, 85, 88, 112, 88, 68, 87, 97, 117, 78, 112, 112, 89, 52, 65, 109, 50, 99, 56, 114, 90, 54, 115, 98, 52, 89, 102, 49, 53, 77, 106, 77, 56, 110, 53, 66, 121, 68, 120, 43, 81, 87, 101, 67, 90, 116, 99, 114, 80, 113, 100, 100, 120, 76, 114, 104, 109, 57, 48, 54, 98, 83, 75, 98, 81, 65, 70, 116, 84, 49, 117, 67, 112, 43, 122, 80, 53, 65, 120, 108, 113, 74, 102, 53, 100, 48, 80, 112, 50, 79, 120, 121, 88, 121, 106, 103, 61]

/-- detectEncryption: does the payload start with the version bytes "3.1"? -/
def detectEncryption (payload : List Nat) : Bool := payload.take 3 == version

set_option maxRecDepth 20000 in
/-- C3: with the test key "bbe88b3f4106d354", Encrypt of the published test
plaintext produces exactly the published envelope "3.133ed3d4a21effe90zrA8OK...";
Decrypt of that envelope returns the plaintext; corrupting byte index 10 of the
envelope (setting it to 0x66 as in TestCipherDecryptErrors) yields the
tag-verification error; and flipping a bit of any one character of the envelope
from the start of the base64 segment (index 19) to the end (index 126) also
yields the tag-verification error, never a base64 or padding error. -/
theorem cipher_test_vector_and_tamper :
    Cipher.Encrypt ⟨testKey⟩ testPlaintext = testCiphertext ∧
    Cipher.Decrypt ⟨testKey⟩ testCiphertext = .ok testPlaintext ∧
    Cipher.Decrypt ⟨testKey⟩ (testCiphertext.set 10 102) = .err .tagVerification ∧
    (∀ i < 127, 19 ≤ i →
      Cipher.Decrypt ⟨testKey⟩
          (testCiphertext.set i (testCiphertext.getD i 0 ^^^ 1)) =
        .err .tagVerification) := by
  decide!

/-- Witness for C3's bounded quantifier: the tamper result at index 20. -/
theorem cipher_test_vector_and_tamper_witness :
    Cipher.Decrypt ⟨testKey⟩
        (testCiphertext.set 20 (testCiphertext.getD 20 0 ^^^ 1)) =
      .err .tagVerification :=
  cipher_test_vector_and_tamper.2.2.2 20 (by decide) (by decide)

/-! Linearity of the GF(2^8) multiplications over XOR, and the
MixColumns/InvMixColumns inverse relation. -/

instance : Std.Associative (fun a b : Nat => a ^^^ b) := ⟨Nat.xor_assoc⟩
instance : Std.Commutative (fun a b : Nat => a ^^^ b) := ⟨Nat.xor_comm⟩

lemma two_mul_xor (a b : Nat) : 2 * (a ^^^ b) = 2 * a ^^^ 2 * b := by
  have h : ∀ x : Nat, 2 * x = x <<< 1 := by
    intro x; simp [Nat.shiftLeft_eq, Nat.mul_comm]
  rw [h, h, h]
  apply Nat.eq_of_testBit_eq
  intro i
  by_cases hi : 1 ≤ i <;>
    simp [Nat.testBit_shiftLeft, Nat.testBit_xor, hi]

lemma xor_mod_two_pow (a b n : Nat) :
    (a ^^^ b) % 2 ^ n = a % 2 ^ n ^^^ b % 2 ^ n := by
  apply Nat.eq_of_testBit_eq
  intro i
  by_cases h : i < n <;>
    simp [Nat.testBit_mod_two_pow, Nat.testBit_xor, h]

lemma xor_mod_256 (a b : Nat) : (a ^^^ b) % 256 = a % 256 ^^^ b % 256 := by
  have h := xor_mod_two_pow a b 8
  norm_num at h
  exact h

lemma xtime_xor (a b : Nat) : xtime (a ^^^ b) = xtime a ^^^ xtime b := by
  unfold xtime
  rw [← xor_mod_256, two_mul_xor, Nat.testBit_xor]
  have hc : (if ((a.testBit 7).xor (b.testBit 7)) = true then 27 else 0) =
      (if a.testBit 7 = true then 27 else 0) ^^^
        (if b.testBit 7 = true then 27 else 0) := by
    cases a.testBit 7 <;> cases b.testBit 7 <;> simp
  rw [hc]
  refine congrArg (fun z => z % 256) ?_
  ac_rfl

lemma m2_xor (a b : Nat) : m2 (a ^^^ b) = m2 a ^^^ m2 b := xtime_xor a b

lemma m3_xor (a b : Nat) : m3 (a ^^^ b) = m3 a ^^^ m3 b := by
  unfold m3
  rw [xtime_xor]
  ac_rfl

lemma m4_xor (a b : Nat) : m4 (a ^^^ b) = m4 a ^^^ m4 b := by
  unfold m4; rw [xtime_xor, xtime_xor]

lemma m8_xor (a b : Nat) : m8 (a ^^^ b) = m8 a ^^^ m8 b := by
  unfold m8; rw [xtime_xor, xtime_xor, xtime_xor]

lemma m9_xor (a b : Nat) : m9 (a ^^^ b) = m9 a ^^^ m9 b := by
  unfold m9; rw [m8_xor]; ac_rfl

lemma m11_xor (a b : Nat) : m11 (a ^^^ b) = m11 a ^^^ m11 b := by
  unfold m11; rw [m8_xor, m2_xor]; ac_rfl

lemma m13_xor (a b : Nat) : m13 (a ^^^ b) = m13 a ^^^ m13 b := by
  unfold m13; rw [m8_xor, m4_xor]; ac_rfl

lemma m14_xor (a b : Nat) : m14 (a ^^^ b) = m14 a ^^^ m14 b := by
  unfold m14; rw [m8_xor, m4_xor, m2_xor]; ac_rfl

set_option maxRecDepth 10000 in
/-- Column of the inverse matrix times first column of the forward matrix. -/
lemma mcol_id : ∀ x < 256, m14 (m2 x) ^^^ m11 x ^^^ m13 x ^^^ m9 (m3 x) = x := by decide

set_option maxRecDepth 10000 in
lemma mcol_z1 : ∀ x < 256, m14 (m3 x) ^^^ m11 (m2 x) ^^^ m13 x ^^^ m9 x = 0 := by decide

set_option maxRecDepth 10000 in
lemma mcol_z2 : ∀ x < 256, m14 x ^^^ m11 (m3 x) ^^^ m13 (m2 x) ^^^ m9 x = 0 := by decide

set_option maxRecDepth 10000 in
lemma mcol_z3 : ∀ x < 256, m14 x ^^^ m11 x ^^^ m13 (m3 x) ^^^ m9 (m2 x) = 0 := by decide

lemma ic_mc0 (x0 x1 x2 x3 : Nat) (h0 : x0 < 256) (h1 : x1 < 256)
    (h2 : x2 < 256) (h3 : x3 < 256) :
    ic0 (mc0 x0 x1 x2 x3) (mc1 x0 x1 x2 x3) (mc2 x0 x1 x2 x3) (mc3 x0 x1 x2 x3) = x0 := by
  unfold ic0 mc0 mc1 mc2 mc3
  rw [m14_xor, m14_xor, m14_xor, m11_xor, m11_xor, m11_xor,
    m13_xor, m13_xor, m13_xor, m9_xor, m9_xor, m9_xor]
  calc m14 (m2 x0) ^^^ m14 (m3 x1) ^^^ m14 x2 ^^^ m14 x3 ^^^
        (m11 x0 ^^^ m11 (m2 x1) ^^^ m11 (m3 x2) ^^^ m11 x3) ^^^
        (m13 x0 ^^^ m13 x1 ^^^ m13 (m2 x2) ^^^ m13 (m3 x3)) ^^^
        (m9 (m3 x0) ^^^ m9 x1 ^^^ m9 x2 ^^^ m9 (m2 x3)) =
      (m14 (m2 x0) ^^^ m11 x0 ^^^ m13 x0 ^^^ m9 (m3 x0)) ^^^
        ((m14 (m3 x1) ^^^ m11 (m2 x1) ^^^ m13 x1 ^^^ m9 x1) ^^^
          ((m14 x2 ^^^ m11 (m3 x2) ^^^ m13 (m2 x2) ^^^ m9 x2) ^^^
            (m14 x3 ^^^ m11 x3 ^^^ m13 (m3 x3) ^^^ m9 (m2 x3)))) := by ac_rfl
    _ = x0 := by
        rw [mcol_id x0 h0, mcol_z1 x1 h1, mcol_z2 x2 h2, mcol_z3 x3 h3]
        simp

lemma ic_mc1 (x0 x1 x2 x3 : Nat) (h0 : x0 < 256) (h1 : x1 < 256)
    (h2 : x2 < 256) (h3 : x3 < 256) :
    ic1 (mc0 x0 x1 x2 x3) (mc1 x0 x1 x2 x3) (mc2 x0 x1 x2 x3) (mc3 x0 x1 x2 x3) = x1 := by
  unfold ic1 mc0 mc1 mc2 mc3
  rw [m9_xor, m9_xor, m9_xor, m14_xor, m14_xor, m14_xor,
    m11_xor, m11_xor, m11_xor, m13_xor, m13_xor, m13_xor]
  trans (m14 (m2 x1) ^^^ m11 x1 ^^^ m13 x1 ^^^ m9 (m3 x1)) ^^^
      ((m14 x0 ^^^ m11 x0 ^^^ m13 (m3 x0) ^^^ m9 (m2 x0)) ^^^
        ((m14 (m3 x2) ^^^ m11 (m2 x2) ^^^ m13 x2 ^^^ m9 x2) ^^^
          (m14 x3 ^^^ m11 (m3 x3) ^^^ m13 (m2 x3) ^^^ m9 x3)))
  · ac_rfl
  · rw [mcol_id x1 h1, mcol_z3 x0 h0, mcol_z1 x2 h2, mcol_z2 x3 h3]
    simp

lemma ic_mc2 (x0 x1 x2 x3 : Nat) (h0 : x0 < 256) (h1 : x1 < 256)
    (h2 : x2 < 256) (h3 : x3 < 256) :
    ic2 (mc0 x0 x1 x2 x3) (mc1 x0 x1 x2 x3) (mc2 x0 x1 x2 x3) (mc3 x0 x1 x2 x3) = x2 := by
  unfold ic2 mc0 mc1 mc2 mc3
  rw [m13_xor, m13_xor, m13_xor, m9_xor, m9_xor, m9_xor,
    m14_xor, m14_xor, m14_xor, m11_xor, m11_xor, m11_xor]
  trans (m14 (m2 x2) ^^^ m11 x2 ^^^ m13 x2 ^^^ m9 (m3 x2)) ^^^
      ((m14 x0 ^^^ m11 (m3 x0) ^^^ m13 (m2 x0) ^^^ m9 x0) ^^^
        ((m14 x1 ^^^ m11 x1 ^^^ m13 (m3 x1) ^^^ m9 (m2 x1)) ^^^
          (m14 (m3 x3) ^^^ m11 (m2 x3) ^^^ m13 x3 ^^^ m9 x3)))
  · ac_rfl
  · rw [mcol_id x2 h2, mcol_z2 x0 h0, mcol_z3 x1 h1, mcol_z1 x3 h3]
    simp

lemma ic_mc3 (x0 x1 x2 x3 : Nat) (h0 : x0 < 256) (h1 : x1 < 256)
    (h2 : x2 < 256) (h3 : x3 < 256) :
    ic3 (mc0 x0 x1 x2 x3) (mc1 x0 x1 x2 x3) (mc2 x0 x1 x2 x3) (mc3 x0 x1 x2 x3) = x3 := by
  unfold ic3 mc0 mc1 mc2 mc3
  rw [m11_xor, m11_xor, m11_xor, m13_xor, m13_xor, m13_xor,
    m9_xor, m9_xor, m9_xor, m14_xor, m14_xor, m14_xor]
  trans (m14 (m2 x3) ^^^ m11 x3 ^^^ m13 x3 ^^^ m9 (m3 x3)) ^^^
      ((m14 (m3 x0) ^^^ m11 (m2 x0) ^^^ m13 x0 ^^^ m9 x0) ^^^
        ((m14 x1 ^^^ m11 (m3 x1) ^^^ m13 (m2 x1) ^^^ m9 x1) ^^^
          (m14 x2 ^^^ m11 x2 ^^^ m13 (m3 x2) ^^^ m9 (m2 x2)))) 
  · ac_rfl
  · rw [mcol_id x3 h3, mcol_z1 x0 h0, mcol_z2 x1 h1, mcol_z3 x2 h2]
    simp

/-- All sixteen bytes of the state are in range. -/
def B16.WF (s : B16) : Prop :=
  s.b0 < 256 ∧ s.b1 < 256 ∧ s.b2 < 256 ∧ s.b3 < 256 ∧
  s.b4 < 256 ∧ s.b5 < 256 ∧ s.b6 < 256 ∧ s.b7 < 256 ∧
  s.b8 < 256 ∧ s.b9 < 256 ∧ s.b10 < 256 ∧ s.b11 < 256 ∧
  s.b12 < 256 ∧ s.b13 < 256 ∧ s.b14 < 256 ∧ s.b15 < 256

lemma invMixColumns_mixColumns (s : B16) (h : s.WF) :
    invMixColumns (mixColumns s) = s := by
  obtain ⟨b0,b1,b2,b3,b4,b5,b6,b7,b8,b9,b10,b11,b12,b13,b14,b15⟩ := s
  obtain ⟨h0,h1,h2,h3,h4,h5,h6,h7,h8,h9,h10,h11,h12,h13,h14,h15⟩ := h
  simp only [mixColumns, invMixColumns, B16.mk.injEq]
  exact ⟨ic_mc0 _ _ _ _ h0 h1 h2 h3, ic_mc1 _ _ _ _ h0 h1 h2 h3,
    ic_mc2 _ _ _ _ h0 h1 h2 h3, ic_mc3 _ _ _ _ h0 h1 h2 h3,
    ic_mc0 _ _ _ _ h4 h5 h6 h7, ic_mc1 _ _ _ _ h4 h5 h6 h7,
    ic_mc2 _ _ _ _ h4 h5 h6 h7, ic_mc3 _ _ _ _ h4 h5 h6 h7,
    ic_mc0 _ _ _ _ h8 h9 h10 h11, ic_mc1 _ _ _ _ h8 h9 h10 h11,
    ic_mc2 _ _ _ _ h8 h9 h10 h11, ic_mc3 _ _ _ _ h8 h9 h10 h11,
    ic_mc0 _ _ _ _ h12 h13 h14 h15, ic_mc1 _ _ _ _ h12 h13 h14 h15,
    ic_mc2 _ _ _ _ h12 h13 h14 h15, ic_mc3 _ _ _ _ h12 h13 h14 h15⟩

/-! Range facts and the inverses of the byte-level round operations. -/

lemma xtime_lt (t : Nat) : xtime t < 256 := Nat.mod_lt _ (by norm_num)

lemma xor_lt_256 {a b : Nat} (ha : a < 256) (hb : b < 256) : a ^^^ b < 256 := by
  have h : a ^^^ b < 2 ^ 8 := Nat.xor_lt_two_pow (by simpa using ha) (by simpa using hb)
  simpa using h

lemma m3_lt {t : Nat} (h : t < 256) : m3 t < 256 := xor_lt_256 (xtime_lt t) h

lemma mc0_lt {x0 x1 x2 x3 : Nat} (h0 : x0 < 256) (h1 : x1 < 256)
    (h2 : x2 < 256) (h3 : x3 < 256) : mc0 x0 x1 x2 x3 < 256 :=
  xor_lt_256 (xor_lt_256 (xor_lt_256 (xtime_lt x0) (m3_lt h1)) h2) h3

lemma mc1_lt {x0 x1 x2 x3 : Nat} (h0 : x0 < 256) (h1 : x1 < 256)
    (h2 : x2 < 256) (h3 : x3 < 256) : mc1 x0 x1 x2 x3 < 256 :=
  xor_lt_256 (xor_lt_256 (xor_lt_256 h0 (xtime_lt x1)) (m3_lt h2)) h3

lemma mc2_lt {x0 x1 x2 x3 : Nat} (h0 : x0 < 256) (h1 : x1 < 256)
    (h2 : x2 < 256) (h3 : x3 < 256) : mc2 x0 x1 x2 x3 < 256 :=
  xor_lt_256 (xor_lt_256 (xor_lt_256 h0 h1) (xtime_lt x2)) (m3_lt h3)

lemma mc3_lt {x0 x1 x2 x3 : Nat} (h0 : x0 < 256) (h1 : x1 < 256)
    (h2 : x2 < 256) (h3 : x3 < 256) : mc3 x0 x1 x2 x3 < 256 :=
  xor_lt_256 (xor_lt_256 (xor_lt_256 (m3_lt h0) h1) h2) (xtime_lt x3)

lemma mixColumns_WF {s : B16} (h : s.WF) : (mixColumns s).WF := by
  obtain ⟨h0,h1,h2,h3,h4,h5,h6,h7,h8,h9,h10,h11,h12,h13,h14,h15⟩ := h
  exact ⟨mc0_lt h0 h1 h2 h3, mc1_lt h0 h1 h2 h3, mc2_lt h0 h1 h2 h3, mc3_lt h0 h1 h2 h3,
    mc0_lt h4 h5 h6 h7, mc1_lt h4 h5 h6 h7, mc2_lt h4 h5 h6 h7, mc3_lt h4 h5 h6 h7,
    mc0_lt h8 h9 h10 h11, mc1_lt h8 h9 h10 h11, mc2_lt h8 h9 h10 h11, mc3_lt h8 h9 h10 h11,
    mc0_lt h12 h13 h14 h15, mc1_lt h12 h13 h14 h15, mc2_lt h12 h13 h14 h15, mc3_lt h12 h13 h14 h15⟩

set_option maxRecDepth 10000 in
lemma sbox_length : sbox.length = 256 := by decide

set_option maxRecDepth 10000 in
lemma sboxF_lt_aux : ∀ b < 256, sboxF b < 256 := by decide

lemma sboxF_lt (b : Nat) : sboxF b < 256 := by
  rcases Nat.lt_or_ge b 256 with h | h
  · exact sboxF_lt_aux b h
  · unfold sboxF
    rw [List.getD_eq_default]
    · norm_num
    · rw [sbox_length]; exact h

set_option maxRecDepth 10000 in
lemma invSbox_sbox : ∀ b < 256, invSboxF (sboxF b) = b := by decide

lemma subBytes_WF (s : B16) : (subBytes s).WF :=
  ⟨sboxF_lt _, sboxF_lt _, sboxF_lt _, sboxF_lt _, sboxF_lt _, sboxF_lt _,
   sboxF_lt _, sboxF_lt _, sboxF_lt _, sboxF_lt _, sboxF_lt _, sboxF_lt _,
   sboxF_lt _, sboxF_lt _, sboxF_lt _, sboxF_lt _⟩

lemma shiftRows_WF {s : B16} (h : s.WF) : (shiftRows s).WF := by
  obtain ⟨h0,h1,h2,h3,h4,h5,h6,h7,h8,h9,h10,h11,h12,h13,h14,h15⟩ := h
  exact ⟨h0, h5, h10, h15, h4, h9, h14, h3, h8, h13, h2, h7, h12, h1, h6, h11⟩

lemma addRoundKey_WF {s k : B16} (hs : s.WF) (hk : k.WF) : (addRoundKey s k).WF := by
  obtain ⟨a0,a1,a2,a3,a4,a5,a6,a7,a8,a9,a10,a11,a12,a13,a14,a15⟩ := hs
  obtain ⟨c0,c1,c2,c3,c4,c5,c6,c7,c8,c9,c10,c11,c12,c13,c14,c15⟩ := hk
  exact ⟨xor_lt_256 a0 c0, xor_lt_256 a1 c1, xor_lt_256 a2 c2, xor_lt_256 a3 c3,
    xor_lt_256 a4 c4, xor_lt_256 a5 c5, xor_lt_256 a6 c6, xor_lt_256 a7 c7,
    xor_lt_256 a8 c8, xor_lt_256 a9 c9, xor_lt_256 a10 c10, xor_lt_256 a11 c11,
    xor_lt_256 a12 c12, xor_lt_256 a13 c13, xor_lt_256 a14 c14, xor_lt_256 a15 c15⟩

lemma addRoundKey_cancel (s k : B16) : addRoundKey (addRoundKey s k) k = s := by
  simp [addRoundKey, Nat.xor_cancel_right]

lemma invShiftRows_shiftRows (s : B16) : invShiftRows (shiftRows s) = s := rfl

lemma invSubBytes_subBytes (s : B16) (h : s.WF) : invSubBytes (subBytes s) = s := by
  obtain ⟨b0,b1,b2,b3,b4,b5,b6,b7,b8,b9,b10,b11,b12,b13,b14,b15⟩ := s
  obtain ⟨h0,h1,h2,h3,h4,h5,h6,h7,h8,h9,h10,h11,h12,h13,h14,h15⟩ := h
  simp only [subBytes, invSubBytes, B16.mk.injEq]
  exact ⟨invSbox_sbox _ h0, invSbox_sbox _ h1, invSbox_sbox _ h2, invSbox_sbox _ h3,
    invSbox_sbox _ h4, invSbox_sbox _ h5, invSbox_sbox _ h6, invSbox_sbox _ h7,
    invSbox_sbox _ h8, invSbox_sbox _ h9, invSbox_sbox _ h10, invSbox_sbox _ h11,
    invSbox_sbox _ h12, invSbox_sbox _ h13, invSbox_sbox _ h14, invSbox_sbox _ h15⟩

/-! The rounds and their inverses. -/

lemma encRounds_WF : ∀ (ks : List B16) (s : B16),
    (∀ k ∈ ks, k.WF) → s.WF → (encRounds ks s).WF := by
  intro ks
  induction ks with
  | nil => intro s _ hs; exact hs
  | cons k t ih =>
    intro s hk hs
    cases t with
    | nil =>
      simp only [encRounds]
      exact addRoundKey_WF (shiftRows_WF (subBytes_WF s)) (hk k (by simp))
    | cons k2 t2 =>
      simp only [encRounds]
      exact ih _ (fun k' h => hk k' (by simp [h]))
        (addRoundKey_WF (mixColumns_WF (shiftRows_WF (subBytes_WF s))) (hk k (by simp)))

lemma invEncRounds_encRounds : ∀ (ks : List B16) (s : B16),
    (∀ k ∈ ks, k.WF) → s.WF → invEncRounds ks (encRounds ks s) = s := by
  intro ks
  induction ks with
  | nil => intro s _ _; rfl
  | cons k t ih =>
    intro s hk hs
    cases t with
    | nil =>
      simp only [encRounds, invEncRounds]
      rw [addRoundKey_cancel, invShiftRows_shiftRows, invSubBytes_subBytes s hs]
    | cons k2 t2 =>
      simp only [encRounds, invEncRounds]
      rw [ih _ (fun k' h => hk k' (by simp [h]))
        (addRoundKey_WF (mixColumns_WF (shiftRows_WF (subBytes_WF s))) (hk k (by simp)))]
      rw [addRoundKey_cancel,
        invMixColumns_mixColumns _ (shiftRows_WF (subBytes_WF s)),
        invShiftRows_shiftRows, invSubBytes_subBytes s hs]

lemma decryptBlock_encryptBlock (rks : List B16) (s : B16)
    (hk : ∀ k ∈ rks, k.WF) (hs : s.WF) :
    decryptBlock rks (encryptBlock rks s) = s := by
  cases rks with
  | nil => rfl
  | cons k t =>
    show addRoundKey (invEncRounds t (encRounds t (addRoundKey s k))) k = s
    rw [invEncRounds_encRounds t _ (fun k' h => hk k' (by simp [h]))
      (addRoundKey_WF hs (hk k (by simp)))]
    exact addRoundKey_cancel s k

lemma encryptBlock_WF (rks : List B16) (s : B16)
    (hk : ∀ k ∈ rks, k.WF) (hs : s.WF) : (encryptBlock rks s).WF := by
  cases rks with
  | nil => exact hs
  | cons k t =>
    show (encRounds t (addRoundKey s k)).WF
    exact encRounds_WF t _ (fun k' h => hk k' (by simp [h]))
      (addRoundKey_WF hs (hk k (by simp)))

/-! The key schedule produces in-range round keys. -/

lemma getD_lt {l : List Nat} {d : Nat} (h : ∀ b ∈ l, b < 256) (hd : d < 256) (i : Nat) :
    l.getD i d < 256 := by
  rw [List.getD_eq_getElem?_getD]
  cases hx : l[i]? with
  | none => simpa using hd
  | some x => simpa using h x (List.getElem?_mem hx)

lemma powx_lt (n : Nat) : powx n < 256 := by
  cases n with
  | zero => norm_num [powx]
  | succ m => exact xtime_lt _

lemma xorW_lt : ∀ (a b : List Nat), (∀ x ∈ a, x < 256) → (∀ x ∈ b, x < 256) →
    ∀ x ∈ xorW a b, x < 256 := by
  intro a
  induction a with
  | nil => intro b _ _ x hx; simp [xorW] at hx
  | cons h t ih =>
    intro b ha hb x hx
    cases b with
    | nil => simp [xorW] at hx
    | cons h2 t2 =>
      simp only [xorW, List.zipWith_cons_cons] at hx
      rcases List.mem_cons.mp hx with rfl | hx2
      · exact xor_lt_256 (ha _ (by simp)) (hb _ (by simp))
      · exact ih t2 (fun y hy => ha y (by simp [hy])) (fun y hy => hb y (by simp [hy])) x hx2

lemma nextWord_lt (key : List Nat) (nk : Nat) (prev : List (List Nat)) (i : Nat)
    (hkey : ∀ b ∈ key, b < 256) (hprev : ∀ w ∈ prev, ∀ b ∈ w, b < 256) :
    ∀ b ∈ nextWord key nk prev i, b < 256 := by
  have hget : ∀ j, ∀ b ∈ prev.getD j [], b < 256 := by
    intro j
    rw [List.getD_eq_getElem?_getD]
    cases hx : prev[j]? with
    | none => simp
    | some w => simpa using hprev w (List.getElem?_mem hx)
  have hsub : ∀ (w : List Nat), ∀ b ∈ subW w, b < 256 := by
    intro w b hb
    rw [subW, List.mem_map] at hb
    obtain ⟨x, _, rfl⟩ := hb
    exact sboxF_lt x
  simp only [nextWord]
  split
  · intro b hb
    exact hkey b (List.mem_of_mem_drop (List.mem_of_mem_take hb))
  · split
    · intro b hb
      simp at hb
      omega
    · apply xorW_lt _ _ (hget _)
      split
      · apply xorW_lt _ _ (hsub _)
        intro x hx
        simp at hx
        rcases hx with rfl | rfl | rfl | rfl
        · exact powx_lt _
        all_goals norm_num
      · split
        · exact hsub _
        · exact hget _

lemma expandWords_lt (key : List Nat) (nk : Nat) (hkey : ∀ b ∈ key, b < 256) :
    ∀ n, ∀ w ∈ expandWords key nk n, ∀ b ∈ w, b < 256 := by
  intro n
  induction n with
  | zero => simp [expandWords]
  | succ m ih =>
    intro w hw
    simp only [expandWords, List.mem_append, List.mem_singleton] at hw
    rcases hw with hw | rfl
    · exact ih w hw
    · exact nextWord_lt key nk _ m hkey ih

lemma roundKey_WF (ws : List (List Nat)) (h : ∀ w ∈ ws, ∀ b ∈ w, b < 256) (i : Nat) :
    (roundKey ws i).WF := by
  have hget : ∀ j, ∀ b ∈ ws.getD j [], b < 256 := by
    intro j
    rw [List.getD_eq_getElem?_getD]
    cases hx : ws[j]? with
    | none => simp
    | some w => simpa using h w (List.getElem?_mem hx)
  have hb : ∀ j k, (ws.getD j []).getD k 0 < 256 := by
    intro j k
    exact getD_lt (hget j) (by norm_num) k
  exact ⟨hb _ _, hb _ _, hb _ _, hb _ _, hb _ _, hb _ _, hb _ _, hb _ _,
    hb _ _, hb _ _, hb _ _, hb _ _, hb _ _, hb _ _, hb _ _, hb _ _⟩

lemma roundKeys_WF (key : List Nat) (hkey : ∀ b ∈ key, b < 256) :
    ∀ k ∈ roundKeys key, k.WF := by
  intro k hk
  simp only [roundKeys, List.mem_map] at hk
  obtain ⟨i, _, rfl⟩ := hk
  exact roundKey_WF _ (expandWords_lt key _ hkey _) i

/-! ECB mode: splitting into blocks and the round trip. -/

lemma toList_length (s : B16) : s.toList.length = 16 := rfl

lemma toB16_toList (s : B16) : toB16 s.toList = s := rfl

lemma toList_toB16 (l : List Nat) (h : l.length = 16) : (toB16 l).toList = l := by
  obtain ⟨a0, a1, a2, a3, a4, a5, a6, a7, a8, a9, a10, a11, a12, a13, a14, a15, rfl⟩ :=
    exists16 l h
  rfl

lemma toB16_WF {l : List Nat} (h : ∀ b ∈ l, b < 256) : (toB16 l).WF :=
  ⟨getD_lt h (by norm_num) 0, getD_lt h (by norm_num) 1, getD_lt h (by norm_num) 2,
   getD_lt h (by norm_num) 3, getD_lt h (by norm_num) 4, getD_lt h (by norm_num) 5,
   getD_lt h (by norm_num) 6, getD_lt h (by norm_num) 7, getD_lt h (by norm_num) 8,
   getD_lt h (by norm_num) 9, getD_lt h (by norm_num) 10, getD_lt h (by norm_num) 11,
   getD_lt h (by norm_num) 12, getD_lt h (by norm_num) 13, getD_lt h (by norm_num) 14,
   getD_lt h (by norm_num) 15⟩

lemma toList_mem_lt {s : B16} (h : s.WF) : ∀ b ∈ s.toList, b < 256 := by
  obtain ⟨h0,h1,h2,h3,h4,h5,h6,h7,h8,h9,h10,h11,h12,h13,h14,h15⟩ := h
  intro b hb
  simp [B16.toList] at hb
  rcases hb with rfl|rfl|rfl|rfl|rfl|rfl|rfl|rfl|rfl|rfl|rfl|rfl|rfl|rfl|rfl|rfl <;>
    assumption

lemma ecbEncryptGo_step (rks : List B16) (m : Nat) (l : List Nat) (h16 : 16 ≤ l.length) :
    ecbEncryptGo rks (m + 1) l =
      (encryptBlock rks (toB16 (l.take 16))).toList ++ ecbEncryptGo rks m (l.drop 16) := by
  cases l with
  | nil => simp at h16
  | cons a t => rfl

lemma ecbDecryptGo_append (rks : List B16) (m : Nat) (X Y : List Nat) (hX : X.length = 16) :
    ecbDecryptGo rks (m + 1) (X ++ Y) =
      (decryptBlock rks (toB16 X)).toList ++ ecbDecryptGo rks m Y := by
  obtain ⟨a0, a1, a2, a3, a4, a5, a6, a7, a8, a9, a10, a11, a12, a13, a14, a15, rfl⟩ :=
    exists16 X hX
  rfl

lemma ecbEncryptGo_length (rks : List B16) :
    ∀ (fuel : Nat) (l : List Nat), l.length ≤ fuel → 16 ∣ l.length →
      (ecbEncryptGo rks fuel l).length = l.length := by
  intro fuel
  induction fuel with
  | zero =>
    intro l hl _
    cases l with
    | nil => rfl
    | cons a t => simp at hl
  | succ m ih =>
    intro l hl hdvd
    cases l with
    | nil => rfl
    | cons a t =>
      have h16 : 16 ≤ (a :: t).length := Nat.le_of_dvd (by simp) hdvd
      have hd' : 16 ∣ t.length + 1 := by simpa using hdvd
      simp only [List.length_cons] at hl
      rw [ecbEncryptGo_step rks m _ h16, List.length_append, toList_length,
        ih _ (by simp; omega) (by simp; omega)]
      simp
      omega

lemma ecbEncryptGo_lt (rks : List B16) (hk : ∀ k ∈ rks, k.WF) :
    ∀ (fuel : Nat) (l : List Nat), (∀ b ∈ l, b < 256) →
      ∀ b ∈ ecbEncryptGo rks fuel l, b < 256 := by
  intro fuel
  induction fuel with
  | zero =>
    intro l hl b hb
    cases l with
    | nil => simp [ecbEncryptGo] at hb
    | cons a t => simp [ecbEncryptGo] at hb
  | succ m ih =>
    intro l hl b hb
    cases l with
    | nil => simp [ecbEncryptGo] at hb
    | cons a t =>
      simp only [ecbEncryptGo, List.mem_append] at hb
      rcases hb with hb | hb
      · exact toList_mem_lt (encryptBlock_WF rks _ hk
          (toB16_WF (fun x hx => hl x (List.mem_of_mem_take hx)))) b hb
      · exact ih _ (fun x hx => hl x (List.mem_of_mem_drop hx)) b hb

lemma ecbDecryptGo_ecbEncryptGo (rks : List B16) (hk : ∀ k ∈ rks, k.WF) :
    ∀ (fuel : Nat) (l : List Nat), l.length ≤ fuel → 16 ∣ l.length →
      (∀ b ∈ l, b < 256) →
      ecbDecryptGo rks fuel (ecbEncryptGo rks fuel l) = l := by
  intro fuel
  induction fuel with
  | zero =>
    intro l hl _ _
    cases l with
    | nil => rfl
    | cons a t => simp at hl
  | succ m ih =>
    intro l hl hdvd hlt
    cases l with
    | nil => rfl
    | cons a t =>
      have h16 : 16 ≤ (a :: t).length := Nat.le_of_dvd (by simp) hdvd
      have hd' : 16 ∣ t.length + 1 := by simpa using hdvd
      simp only [List.length_cons] at hl
      rw [ecbEncryptGo_step rks m _ h16,
        ecbDecryptGo_append rks m _ _ (toList_length _),
        toB16_toList,
        decryptBlock_encryptBlock rks _ hk
          (toB16_WF (fun x hx => hlt x (List.mem_of_mem_take hx))),
        toList_toB16 _ (by rw [List.length_take]; simp; omega),
        ih _ (by simp; omega) (by simp; omega)
          (fun x hx => hlt x (List.mem_of_mem_drop hx)),
        List.take_append_drop]

lemma ecbEncrypt_length (rks : List B16) (l : List Nat) (hdvd : 16 ∣ l.length) :
    (ecbEncrypt rks l).length = l.length :=
  ecbEncryptGo_length rks l.length l le_rfl hdvd

lemma ecbEncrypt_lt (rks : List B16) (hk : ∀ k ∈ rks, k.WF) (l : List Nat)
    (hlt : ∀ b ∈ l, b < 256) : ∀ b ∈ ecbEncrypt rks l, b < 256 :=
  ecbEncryptGo_lt rks hk l.length l hlt

lemma ecbDecrypt_ecbEncrypt (rks : List B16) (hk : ∀ k ∈ rks, k.WF) (l : List Nat)
    (hdvd : 16 ∣ l.length) (hlt : ∀ b ∈ l, b < 256) :
    ecbDecrypt rks (ecbEncrypt rks l) = l := by
  unfold ecbDecrypt ecbEncrypt
  rw [ecbEncryptGo_length rks l.length l le_rfl hdvd]
  exact ecbDecryptGo_ecbEncryptGo rks hk l.length l le_rfl hdvd hlt

/-! Base64: the round trip and the encoded length. -/

set_option maxRecDepth 10000 in
lemma decChar_encChar : ∀ s < 64, decChar (encChar s) = some s := by decide

set_option maxRecDepth 10000 in
lemma encChar_ne_61 : ∀ s < 64, encChar s ≠ 61 := by decide

lemma b64decode_b64encode (l : List Nat) :
    (∀ b ∈ l, b < 256) → b64decode (b64encode l) = some l := by
  induction l using b64encode.induct with
  | case1 a b c rest ih =>
    intro h
    have ha : a < 256 := h a (by simp)
    have hb : b < 256 := h b (by simp)
    have hc : c < 256 := h c (by simp)
    have hrest := ih (fun x hx => h x (by simp [hx]))
    simp only [b64encode, b64decode,
      decChar_encChar (a / 4) (by omega),
      decChar_encChar (a % 4 * 16 + b / 16) (by omega),
      decChar_encChar (b % 16 * 4 + c / 64) (by omega),
      decChar_encChar (c % 64) (by omega),
      encChar_ne_61 (c % 64) (by omega),
      hrest, Option.some.injEq, List.cons.injEq, if_false, ite_false]
    simp only [and_true]
    omega
  | case2 a b =>
    intro h
    have ha : a < 256 := h a (by simp)
    have hb : b < 256 := h b (by simp)
    simp only [b64encode, b64decode,
      decChar_encChar (a / 4) (by omega),
      decChar_encChar (a % 4 * 16 + b / 16) (by omega),
      decChar_encChar (b % 16 * 4) (by omega),
      encChar_ne_61 (b % 16 * 4) (by omega),
      Option.some.injEq, List.cons.injEq]
    simp
    omega
  | case3 a =>
    intro h
    have ha : a < 256 := h a (by simp)
    simp only [b64encode, b64decode,
      decChar_encChar (a / 4) (by omega),
      decChar_encChar (a % 4 * 16) (by omega),
      Option.some.injEq, List.cons.injEq]
    simp
    omega
  | case4 =>
    intro _
    rfl

lemma b64encode_length : ∀ l : List Nat, (b64encode l).length = encodedLen l.length := by
  intro l
  induction l using b64encode.induct with
  | case1 a b c rest ih =>
    simp only [b64encode, List.length_cons, ih, encodedLen]
    omega
  | case2 a b => simp [b64encode, encodedLen]
  | case3 a => simp [b64encode, encodedLen]
  | case4 => rfl

/-! Lengths of the digest and the MAC tag. -/

lemma md5_length (msg : List Nat) : (md5 msg).length = 16 := by
  simp [md5, le32enc]

lemma foldr_hexByte_length (l : List Nat) :
    (l.foldr (fun b acc => hexByte b ++ acc) []).length = 2 * l.length := by
  induction l with
  | nil => rfl
  | cons a t ih =>
    simp only [List.foldr_cons, List.length_append, ih]
    simp only [hexByte, List.length_cons, List.length_nil]
    omega

lemma macTag_length (key data : List Nat) : (macTag key data).length = 16 := by
  unfold macTag
  rw [foldr_hexByte_length, List.length_take, List.length_drop, md5_length]
  norm_num

/-! Walking Cipher.Decrypt over a well-formed envelope. -/

lemma getD_last_pad (p : List Nat) (n : Nat) (hn : 1 ≤ n) :
    (p ++ List.replicate n n).getD ((p ++ List.replicate n n).length - 1) 0 = n := by
  rw [List.getD_eq_getElem?_getD, List.length_append, List.length_replicate,
    List.getElem?_append_right (by omega)]
  have hidx : p.length + n - 1 - p.length = n - 1 := by omega
  rw [hidx, List.getElem?_replicate, if_pos (by omega)]
  rfl

lemma pad_all_eq (p : List Nat) (n : Nat) :
    (((p ++ List.replicate n n).drop ((p ++ List.replicate n n).length - n)).take
      (n - 1)).all (fun x => x == n) = true := by
  rw [List.length_append, List.length_replicate, Nat.add_sub_cancel, List.drop_left' rfl,
    List.all_eq_true]
  intro x hx
  have hx' := List.eq_of_mem_replicate (List.mem_of_mem_take hx)
  simp [hx']

lemma take_pad_eq (p : List Nat) (n : Nat) :
    (p ++ List.replicate n n).take ((p ++ List.replicate n n).length - n) = p := by
  rw [List.length_append, List.length_replicate, Nat.add_sub_cancel]
  exact List.take_left' rfl

lemma Decrypt_envelope (key D pt p : List Nat) (padSize : Nat)
    (hD : b64decode D = some pt) (hDlen : 24 ≤ D.length)
    (hpt16 : 16 ∣ pt.length) (hpt0 : pt.length ≠ 0)
    (hdec : ecbDecrypt (roundKeys key) pt = p ++ List.replicate padSize padSize)
    (hps1 : 1 ≤ padSize) (hps16 : padSize ≤ 16) :
    Cipher.Decrypt ⟨key⟩ (version ++ (macTag key D ++ D)) = .ok p := by
  have hbig : ¬ ((version ++ (macTag key D ++ D)).length < 3 + tagSize + encodedLen 16) := by
    simp only [List.length_append, macTag_length, version, List.length_cons,
      List.length_nil, tagSize, encodedLen]
    omega
  have htake3 : (version ++ (macTag key D ++ D)).take 3 = version := List.take_left' rfl
  have hdrop3 : (version ++ (macTag key D ++ D)).drop 3 = macTag key D ++ D :=
    List.drop_left' rfl
  have htag : (macTag key D ++ D).take tagSize = macTag key D :=
    List.take_left' ((macTag_length key D).trans rfl)
  have hdata : (macTag key D ++ D).drop tagSize = D :=
    List.drop_left' ((macTag_length key D).trans rfl)
  have hmod : pt.length % 16 = 0 := by omega
  simp only [Cipher.Decrypt]
  rw [if_neg hbig, htake3]
  rw [if_neg (show ¬ version ≠ version from fun h => h rfl)]
  rw [hdrop3, htag, hdata]
  rw [if_neg (show ¬ macTag key D ≠ macTag key D from fun h => h rfl)]
  simp only [hD]
  rw [if_neg (show ¬ pt.length % 16 ≠ 0 from fun h => h hmod)]
  rw [if_neg hpt0]
  rw [hdec, getD_last_pad p padSize hps1]
  rw [if_neg (show ¬ (padSize < 1 ∨ padSize > 16) from by omega)]
  rw [if_neg (show ¬ ¬ ((((p ++ List.replicate padSize padSize).drop
      ((p ++ List.replicate padSize padSize).length - padSize)).take
      (padSize - 1)).all (fun x => x == padSize) = true) from fun h => h (pad_all_eq p padSize))]
  rw [take_pad_eq]

lemma Decrypt_Encrypt (key p : List Nat)
    (hkb : ∀ b ∈ key, b < 256) (hpb : ∀ b ∈ p, b < 256) :
    Cipher.Decrypt ⟨key⟩ (Cipher.Encrypt ⟨key⟩ p) = .ok p := by
  have hr : p.length % 16 < 16 := Nat.mod_lt _ (by norm_num)
  have hps1 : 1 ≤ 16 - p.length % 16 := by omega
  have hps16 : 16 - p.length % 16 ≤ 16 := by omega
  have hpadlen : (p ++ List.replicate (16 - p.length % 16) (16 - p.length % 16)).length
      = p.length + (16 - p.length % 16) := by simp
  have hdvd : 16 ∣ (p ++ List.replicate (16 - p.length % 16) (16 - p.length % 16)).length := by
    rw [hpadlen]; omega
  have hpadlt : ∀ b ∈ p ++ List.replicate (16 - p.length % 16) (16 - p.length % 16),
      b < 256 := by
    intro b hb
    rw [List.mem_append] at hb
    rcases hb with hb | hb
    · exact hpb b hb
    · have := List.eq_of_mem_replicate hb; omega
  have hrks := roundKeys_WF key hkb
  have hctlen := ecbEncrypt_length (roundKeys key) _ hdvd
  have hctlt := ecbEncrypt_lt (roundKeys key) hrks _ hpadlt
  have hEnc : Cipher.Encrypt ⟨key⟩ p =
      version ++ (macTag key (b64encode (ecbEncrypt (roundKeys key)
          (p ++ List.replicate (16 - p.length % 16) (16 - p.length % 16)))) ++
        b64encode (ecbEncrypt (roundKeys key)
          (p ++ List.replicate (16 - p.length % 16) (16 - p.length % 16)))) := by
    simp only [Cipher.Encrypt, List.append_assoc]
  rw [hEnc]
  apply Decrypt_envelope key _ _ p (16 - p.length % 16)
  · exact b64decode_b64encode _ hctlt
  · rw [b64encode_length, hctlen, hpadlen]
    simp only [encodedLen]
    omega
  · rw [hctlen]; exact hdvd
  · rw [hctlen, hpadlen]; omega
  · exact ecbDecrypt_ecbEncrypt (roundKeys key) hrks _ hdvd hpadlt
  · exact hps1
  · exact hps16

/-! The envelope announces itself: version magic and minimum size. -/

lemma Encrypt_take3 (key p : List Nat) :
    (Cipher.Encrypt ⟨key⟩ p).take 3 = version := by
  simp only [Cipher.Encrypt, List.append_assoc]
  exact List.take_left' rfl

lemma Encrypt_length_ge (key p : List Nat) :
    3 + tagSize + encodedLen 16 ≤ (Cipher.Encrypt ⟨key⟩ p).length := by
  have hr : p.length % 16 < 16 := Nat.mod_lt _ (by norm_num)
  have hpadlen : (p ++ List.replicate (16 - p.length % 16) (16 - p.length % 16)).length
      = p.length + (16 - p.length % 16) := by simp
  have hdvd : 16 ∣ (p ++ List.replicate (16 - p.length % 16) (16 - p.length % 16)).length := by
    rw [hpadlen]; omega
  have hctlen := ecbEncrypt_length (roundKeys key) _ hdvd
  simp only [Cipher.Encrypt, List.length_append, macTag_length, b64encode_length,
    version, List.length_cons, List.length_nil, hctlen, hpadlen, tagSize, encodedLen]
  omega

lemma Decrypt_ne_tooSmall (c : Cipher) (ct : List Nat)
    (h : ¬ (ct.length < 3 + tagSize + encodedLen 16)) :
    Cipher.Decrypt c ct ≠ .err .tooSmall := by
  simp only [Cipher.Decrypt]
  rw [if_neg h]
  repeat' split
  all_goals simp

/-- C2: Cipher round-trip. For every key accepted by aes.NewCipher (16, 24 or
32 bytes) and every plaintext byte string, including the empty string,
Decrypt (Encrypt p) returns p with no error. -/
theorem cipher_encrypt_decrypt_roundtrip (key p : List Nat)
    (hkey : key.length = 16 ∨ key.length = 24 ∨ key.length = 32)
    (hkb : ∀ b ∈ key, b < 256) (hpb : ∀ b ∈ p, b < 256) :
    Cipher.Decrypt ⟨key⟩ (Cipher.Encrypt ⟨key⟩ p) = .ok p :=
  Decrypt_Encrypt key p hkb hpb

/-- Witness for C2: the round trip through the test key on the empty
plaintext. -/
theorem cipher_encrypt_decrypt_roundtrip_witness :
    Cipher.Decrypt ⟨testKey⟩ (Cipher.Encrypt ⟨testKey⟩ []) = .ok [] :=
  cipher_encrypt_decrypt_roundtrip testKey [] (Or.inl (by decide)) (by decide)
    (by simp)

/-- C10: every envelope produced by Encrypt begins with the version bytes
"3.1", so detectEncryption accepts it, its length is at least the minimum
envelope size checked by Decrypt, and Decrypt never rejects it with the
too-small error. -/
theorem cipher_envelope_detected (key p : List Nat)
    (hkey : key.length = 16 ∨ key.length = 24 ∨ key.length = 32) :
    detectEncryption (Cipher.Encrypt ⟨key⟩ p) = true ∧
      3 + tagSize + encodedLen 16 ≤ (Cipher.Encrypt ⟨key⟩ p).length ∧
      Cipher.Decrypt ⟨key⟩ (Cipher.Encrypt ⟨key⟩ p) ≠ .err .tooSmall := by
  refine ⟨?_, Encrypt_length_ge key p, Decrypt_ne_tooSmall _ _ (by
    have := Encrypt_length_ge key p
    omega)⟩
  simp [detectEncryption, Encrypt_take3]

/-- Witness for C10: the envelope for a one-byte plaintext under the test
key is detected as encrypted and not rejected as too small. -/
theorem cipher_envelope_detected_witness :
    detectEncryption (Cipher.Encrypt ⟨testKey⟩ [0]) = true ∧
      3 + tagSize + encodedLen 16 ≤ (Cipher.Encrypt ⟨testKey⟩ [0]).length ∧
      Cipher.Decrypt ⟨testKey⟩ (Cipher.Encrypt ⟨testKey⟩ [0]) ≠ .err .tooSmall :=
  cipher_envelope_detected testKey [0] (Or.inl (by decide))

/-! Response decoding (src/net/client.go): Err, Bytes, DecodeJSON.
Go errors are modelled by GoError; json.Unmarshal is kept abstract as a
function from the body bytes to an optional decoded value. -/

inductive GoError where
  /-- nil error -/
  | none
  /-- fmt.Errorf("payload too short; %d < 4", n) -/
  | tooShort (n : Nat)
  /-- ResponseError with Code and Message bytes -/
  | responseError (code : Nat) (msg : List Nat)
  /-- wrapped json.Unmarshal error -/
  | unmarshal
  /-- ErrClosed -/
  | closed
  /-- fmt.Errorf("Read: %v", ...), recorded by the manager read loop -/
  | readFailed
  /-- fmt.Errorf("response: %v", err) from (*Manager).request -/
  | responseFailed
  /-- fmt.Errorf("response Decode: %v", err) from (*Manager).request -/
  | decodeFailed
  deriving DecidableEq

/-- A Response wraps a decoded frame (src/net/client.go). -/
structure Response where
  Seq : Nat
  Cmd : Nat
  Payload : List Nat

/-- (*Response).Err: payload-length guard, then the big-endian status code. -/
def Response.Err (r : Response) : GoError :=
  if r.Payload.length < 4 then .tooShort r.Payload.length
  else
    let errCode := be32dec (r.Payload.getD 0 0) (r.Payload.getD 1 0)
      (r.Payload.getD 2 0) (r.Payload.getD 3 0)
    if errCode ≠ 0 then .responseError errCode (r.Payload.drop 4)
    else .none

/-- (*Response).Bytes: the payload after the status code, or the Err error. -/
def Response.Bytes (r : Response) : Except GoError (List Nat) :=
  match r.Err with
  | .none => .ok (r.Payload.drop 4)
  | e => .error e

/-- (*Response).DecodeJSON with an abstract json.Unmarshal. -/
def Response.DecodeJSON {α : Type} (u : List Nat → Option α) (r : Response) :
    Except GoError α :=
  match r.Bytes with
  | .error e => .error e
  | .ok data =>
    match u data with
    | Option.none => .error .unmarshal
    | some v => .ok v

/-! Client sequence numbers (src/net/client.go, (*Client).Write). -/

/-- The sequence state of a Client (the uint32 field c.seq). -/
structure Client where
  seq : Nat

/-- The seq update in (*Client).Write: c.seq += 1 on a uint32, and the
incremented value is returned. -/
def Client.WriteSeq (c : Client) : Client × Nat :=
  (⟨(c.seq + 1) % 2 ^ 32⟩, (c.seq + 1) % 2 ^ 32)

/-- The client state after k successful Writes, starting from the fresh
zero-valued client. -/
def clientAfter : Nat → Client
  | 0 => ⟨0⟩
  | k + 1 => ((clientAfter k).WriteSeq).1

/-! The device Manager (src/device/manager.go). -/

/-- The mutable state of a Manager relevant to Close and request: the closed
flag, the recorded fatal read error, and the pending response channels
(keyed by sequence number). -/
structure Manager where
  closed : Bool
  readErr : GoError
  pending : List Nat

/-- (*Manager).Close: set closed, record ErrClosed if no error was recorded,
and close every pending response channel (each waiting caller's receive then
yields the zero value of the response struct). -/
def Manager.Close (m : Manager) : Manager :=
  { closed := true,
    readErr := if m.readErr = GoError.none then .closed else m.readErr,
    pending := [] }

/-- The value a waiting caller receives from its response channel once the
channel is closed: the zero value of the response struct, a nil embedded
*net.Response and a nil readErr. -/
def closedChanZero : Option Response × GoError := (Option.none, GoError.none)

/-- The outcome of the tail of (*Manager).request after the channel receive. -/
inductive ReqResult where
  | ok
  | errResult (e : GoError)
  | panic
  deriving DecidableEq

/-- The tail of (*Manager).request after `resp := <-respChan`: check
resp.readErr, then either return resp.Err() (res == nil) or decode JSON into
res. A nil embedded *net.Response makes both method calls dereference nil. -/
def requestAfterReceive {α : Type} (u : List Nat → Option α) (wantRes : Bool)
    (respPtr : Option Response) (readErr : GoError) : ReqResult :=
  if readErr ≠ GoError.none then .errResult .responseFailed
  else
    match respPtr with
    | Option.none => .panic
    | some r =>
      if wantRes then
        match Response.DecodeJSON u r with
        | .ok _ => .ok
        | .error _ => .errResult .decodeFailed
      else
        match r.Err with
        | .none => .ok
        | e => .errResult e

/-- The guard at the top of (*Manager).request: a recorded fatal error is
returned at once, before anything is written to the transport. -/
def Manager.requestEntry (m : Manager) : Option GoError :=
  if m.readErr ≠ GoError.none then some m.readErr else Option.none

/-- C7: a payload of four zero bytes followed by a body passes Err and
DecodeJSON hands the body to the JSON decoder, returning its value; the
payload 00 00 00 01 ++ "boom" yields a ResponseError with code 1 and
message "boom". -/
theorem response_status_decoding {α : Type} (body : List Nat)
    (u : List Nat → Option α) (v : α) (hu : u body = some v) (seq cmd : Nat) :
    Response.Err ⟨seq, cmd, [0, 0, 0, 0] ++ body⟩ = .none ∧
    Response.DecodeJSON u ⟨seq, cmd, [0, 0, 0, 0] ++ body⟩ = .ok v ∧
    Response.Err ⟨seq, cmd, [0, 0, 0, 1] ++ [98, 111, 111, 109]⟩ =
      .responseError 1 [98, 111, 111, 109] := by
  refine ⟨?_, ?_, ?_⟩
  · simp [Response.Err, be32dec]
  · simp only [Response.DecodeJSON, Response.Bytes, Response.Err, be32dec]
    norm_num
    rw [if_neg (by omega)]
    simp [hu]
  · simp [Response.Err, be32dec]

/-- Witness for C7 at a concrete body and decoder. -/
theorem response_status_decoding_witness :
    Response.Err ⟨0, 0, [0, 0, 0, 0] ++ [123, 125]⟩ = .none ∧
    Response.DecodeJSON some ⟨0, 0, [0, 0, 0, 0] ++ [123, 125]⟩ = .ok [123, 125] ∧
    Response.Err ⟨0, 0, [0, 0, 0, 1] ++ [98, 111, 111, 109]⟩ =
      .responseError 1 [98, 111, 111, 109] :=
  response_status_decoding [123, 125] some [123, 125] rfl 0 0

/-- C9: a payload shorter than 4 bytes makes Err return the too-short error,
which is not nil and not a ResponseError; Bytes and DecodeJSON return that
same error, and no status code is read. -/
theorem response_short_payload {α : Type} (u : List Nat → Option α)
    (r : Response) (h : r.Payload.length < 4) :
    Response.Err r = .tooShort r.Payload.length ∧
    Response.Err r ≠ .none ∧
    (∀ code msg, Response.Err r ≠ .responseError code msg) ∧
    Response.Bytes r = .error (.tooShort r.Payload.length) ∧
    Response.DecodeJSON u r = .error (.tooShort r.Payload.length) := by
  have h1 : Response.Err r = .tooShort r.Payload.length := by
    simp [Response.Err, h]
  have h2 : Response.Bytes r = .error (.tooShort r.Payload.length) := by
    simp [Response.Bytes, h1]
  refine ⟨h1, by simp [h1], by simp [h1], h2, ?_⟩
  simp [Response.DecodeJSON, h2]

/-- Witness for C9 on a two-byte payload. -/
theorem response_short_payload_witness :
    Response.Err ⟨0, 0, [1, 2]⟩ = .tooShort 2 ∧
    Response.Err ⟨0, 0, [1, 2]⟩ ≠ .none ∧
    (∀ code msg, Response.Err ⟨0, 0, [1, 2]⟩ ≠ .responseError code msg) ∧
    Response.Bytes ⟨0, 0, [1, 2]⟩ = .error (.tooShort 2) ∧
    Response.DecodeJSON (fun l => (some l : Option (List Nat))) ⟨0, 0, [1, 2]⟩ =
      .error (.tooShort 2) :=
  response_short_payload (fun l => (some l : Option (List Nat))) ⟨0, 0, [1, 2]⟩
    (by decide)

/-- C8 counterexample: the uint32 sequence counter wraps. The value returned
by Write number 2^32 on a fresh client is 0: it is neither greater than, nor
one more than, the value 2^32 - 1 returned by the preceding call. -/
theorem client_write_seq_wraparound :
    (clientAfter (2 ^ 32 - 1)).seq = 2 ^ 32 - 1 ∧
    (clientAfter (2 ^ 32)).seq = 0 ∧
    ¬ ((clientAfter (2 ^ 32 - 1)).seq < (clientAfter (2 ^ 32)).seq) ∧
    (clientAfter (2 ^ 32)).seq ≠ (clientAfter (2 ^ 32 - 1)).seq + 1 := by
  have hmod : ∀ k, (clientAfter k).seq = k % 2 ^ 32 := by
    intro k
    induction k with
    | zero => rfl
    | succ n ih =>
      show ((clientAfter n).WriteSeq).2 = (n + 1) % 2 ^ 32
      simp only [Client.WriteSeq, ih]
      omega
  refine ⟨?_, ?_, ?_, ?_⟩ <;> simp [hmod]

/-- C8 amended: each successful Write returns the previous sequence number
plus one reduced modulo 2^32, so the returned numbers are strictly
increasing (and hence distinct) as long as fewer than 2^32 calls are made. -/
theorem client_write_seq_amended :
    (∀ k, (clientAfter k).seq = k % 2 ^ 32) ∧
    (∀ j k, j < k → k < 2 ^ 32 → (clientAfter j).seq < (clientAfter k).seq) := by
  have hmod : ∀ k, (clientAfter k).seq = k % 2 ^ 32 := by
    intro k
    induction k with
    | zero => rfl
    | succ n ih =>
      show ((clientAfter n).WriteSeq).2 = (n + 1) % 2 ^ 32
      simp only [Client.WriteSeq, ih]
      omega
  refine ⟨hmod, ?_⟩
  intro j k hjk hk
  rw [hmod, hmod]
  omega

/-- Witness for C8's amended bounded-monotonicity at calls 5 and 7. -/
theorem client_write_seq_amended_witness :
    (clientAfter 5).seq < (clientAfter 7).seq :=
  client_write_seq_amended.2 5 7 (by norm_num) (by norm_num)

/-- C6 (code bug): Close unblocks a waiting caller by closing its channel,
but the receive then yields the zero response value (nil *net.Response, nil
readErr) and the request tail dereferences the nil pointer in resp.Err or
resp.DecodeJSON: the caller panics instead of getting a closed/fatal error.
The post-close half of the claim does hold: Close records ErrClosed when no
error was recorded, clears the pending set, and a later request returns the
recorded error at the entry check, before any transport write. -/
theorem manager_close_bug :
    requestAfterReceive (fun _ : List Nat => (Option.none : Option Unit)) false
      closedChanZero.1 closedChanZero.2 = .panic ∧
    requestAfterReceive (fun l : List Nat => some l) true
      closedChanZero.1 closedChanZero.2 = .panic ∧
    (Manager.Close ⟨false, .none, [1, 2, 3]⟩).pending = [] ∧
    Manager.requestEntry (Manager.Close ⟨false, .none, [1, 2, 3]⟩) = some .closed ∧
    (∀ (m : Manager), m.readErr ≠ .none →
      Manager.requestEntry m = some m.readErr) := by
  refine ⟨rfl, rfl, rfl, rfl, ?_⟩
  intro m hm
  simp [Manager.requestEntry, hm]

end Tuya
